import Mathlib

/-!
Verification development for the crefin-backend invoice lifecycle and
payment-prediction subsystem.

The definitions below are a shallow embedding of the TypeScript sources:

* `src/services/invoice.service.ts` — `generateInvoiceNumber`, `createInvoice`,
  `getInvoiceById`, `updateInvoice`, `markInvoiceAsPaid`, `deleteInvoice`,
  `calculateClientStats`;
* `src/services/ml.service.ts` — `predictPaymentTime`;
* `src/utils/errors.ts` — the error-class taxonomy (`NotFoundError`,
  `ConflictError`, plain `Error`);
* `prisma/migrations` — the `invoices` table: `status` defaults to `draft`,
  `terms` defaults to `'Payment due within 30 days'`, and there is a GLOBAL
  unique index `invoices_invoiceNumber_key` on `invoiceNumber`, which a
  `db.invoice.create` therefore enforces (Prisma error P2002 on collision).

Modelling conventions: timestamps are integer milliseconds (`Int`); monetary
amounts are exact rationals (Prisma `Decimal(10,2)`); database rows are lists;
a Prisma `$transaction` is a single atomic state update; the ML HTTP call is
an explicit parameter of type `Except String PaymentPredictionResponse`
(`.error` covers timeout / non-2xx / malformed response, the cases in which
axios rejects); `new Date().getFullYear()` and the `issueDate` column default
`CURRENT_TIMESTAMP` are explicit clock parameters (`year`, `now`).
Invoice numbers are kept as `List Char` (the character content of the stored
string), so that the Prisma `startsWith` filter becomes the list prefix
relation.
-/

set_option autoImplicit false

namespace Crefin

/-- Invoice status union type (invoice.types.ts `InvoiceStatus`). -/
inductive InvoiceStatus where
  | draft
  | sent
  | paid
  | overdue
  | cancelled
  deriving Repr, DecidableEq

/-- Line item of an invoice (invoice.types.ts `InvoiceLineItem`). -/
structure InvoiceLineItem where
  description : String
  quantity : ℚ
  rate : ℚ
  amount : ℚ
  deriving Repr, DecidableEq

/-- Client row (clients table), restricted to the columns the invoice
subsystem reads. -/
structure Client where
  id : Nat
  userId : String
  name : String
  email : Option String := none
  deriving Repr, DecidableEq

/-- Invoice row (invoices table of the migration in the repository). -/
structure Invoice where
  id : Nat
  userId : String
  clientId : Nat
  invoiceNumber : List Char
  amount : ℚ
  description : String
  items : Option (List InvoiceLineItem)
  status : InvoiceStatus
  issueDate : Int
  dueDate : Int
  paidDate : Option Int
  incomeLogId : Option Nat
  predictedPaymentDays : Option ℚ
  predictionConfidence : Option ℚ
  predictedPaymentDate : Option Int
  notes : Option String
  terms : Option String
  deriving Repr, DecidableEq

/-- Income ledger row (income_logs table), restricted to the columns the
invoice subsystem writes or the claims mention. -/
structure IncomeLog where
  id : Nat
  userId : String
  amount : ℚ
  clientId : Option Nat
  clientName : Option String
  projectName : Option String
  source : String
  notes : Option String
  loggedAt : Int
  deriving Repr, DecidableEq

/-- Error taxonomy of utils/errors.ts as far as the invoice subsystem can
raise it: `notFound` is `NotFoundError` (HTTP 404), `conflict` is
`ConflictError` (HTTP 409), `generic` is a plain thrown `Error` (HTTP 500
through the fallback branch of the error handler), and `uniqueViolation` is
the Prisma P2002 unique-constraint error surfacing from `db.invoice.create`. -/
inductive Err where
  | notFound (resource : String)
  | conflict (message : String)
  | generic (message : String)
  | uniqueViolation (field : String)
  deriving Repr, DecidableEq

/-- Boolean test for whether a raised error is of the `ConflictError` class. -/
def errIsConflict : Err → Bool
  | .conflict _ => true
  | _ => false

instance {ε α : Type} [DecidableEq ε] [DecidableEq α] :
    DecidableEq (Except ε α) := fun a b =>
  match a, b with
  | .ok x, .ok y =>
    if h : x = y then .isTrue (by rw [h])
    else .isFalse fun hh => h (Except.ok.inj hh)
  | .error x, .error y =>
    if h : x = y then .isTrue (by rw [h])
    else .isFalse fun hh => h (Except.error.inj hh)
  | .ok _, .error _ => .isFalse fun hh => Except.noConfusion hh
  | .error _, .ok _ => .isFalse fun hh => Except.noConfusion hh

/-- Database state: the three tables the subsystem touches, a fresh-id
allocator standing for cuid generation, and `issuedLog`, a ghost trace
(not read by any operation) recording one `(userId, year)` entry per
successfully created invoice, used to state issuance-count properties. -/
structure St where
  clients : List Client
  invoices : List Invoice
  incomes : List IncomeLog
  nextId : Nat
  issuedLog : List (String × Nat)
  deriving Repr, DecidableEq

/-- Initial state: some clients, no invoices, no income logs (client
management is outside the modelled subsystem, so clients are given). -/
def initSt (clients : List Client) (nextId : Nat) : St :=
  { clients := clients, invoices := [], incomes := [], nextId := nextId,
    issuedLog := [] }

/-- Prisma `db.client.findUnique` on the primary key. -/
def findClient (s : St) (id : Nat) : Option Client :=
  s.clients.find? fun c => c.id == id

/-- Prisma `db.invoice.findUnique` on the primary key. -/
def findInvoice (s : St) (id : Nat) : Option Invoice :=
  s.invoices.find? fun i => i.id == id

/-- Lookup of an income log by primary key (resolution of the
`incomeLogId` foreign key). -/
def findIncome (s : St) (id : Nat) : Option IncomeLog :=
  s.incomes.find? fun r => r.id == id

/-- Decimal digit character for a digit value. -/
def digitChar (d : Nat) : Char := Char.ofNat (48 + d)

/-- Fuel-driven digit rendering (structural recursion, so that it reduces
inside the kernel); `fuel ≥ n` always suffices since the argument at least
halves on every step. -/
def digitsGo : Nat → Nat → List Char
  | 0, n => [digitChar n]
  | fuel + 1, n =>
    if n < 10 then [digitChar n]
    else digitsGo fuel (n / 10) ++ [digitChar (n % 10)]

/-- Decimal rendering of a natural number as JavaScript string
interpolation produces it (most significant digit first, no sign, no
leading zeros except for 0 itself). -/
def natToDigits (n : Nat) : List Char := digitsGo n n

/-- Value of a digit string, as read back by positional evaluation. -/
def digitsVal (cs : List Char) : Nat :=
  cs.foldl (fun a c => a * 10 + (c.toNat - 48)) 0

/-- JavaScript `String(k).padStart(3, '0')`. -/
def pad3 (cs : List Char) : List Char :=
  List.replicate (3 - cs.length) '0' ++ cs

/-- Characters of the invoice number `INV-<year>-<seq>` with the sequence
zero-padded to (at least) 3 digits, as the template literal in
`generateInvoiceNumber` renders it. -/
def numberChars (year seq : Nat) : List Char :=
  "INV-".toList ++ natToDigits year ++ ['-'] ++ pad3 (natToDigits seq)

/-- Characters of the prefix `INV-<year>-` used in the `startsWith` filter
of `generateInvoiceNumber`. -/
def yearTag (year : Nat) : List Char :=
  "INV-".toList ++ natToDigits year ++ ['-']

/-- The row filter of the count query in `generateInvoiceNumber`:
invoices of the user whose number starts with `INV-<year>-`. -/
def ownedWithTag (userId : String) (year : Nat) (i : Invoice) : Bool :=
  i.userId == userId && decide (yearTag year <+: i.invoiceNumber)

/-- invoice.service.ts `generateInvoiceNumber`: counts the caller's
invoices whose number starts with `INV-<year>-` and appends the zero-padded
successor of that count. -/
def generateInvoiceNumber (userId : String) (year : Nat) (s : St) : List Char :=
  let count := (s.invoices.filter (ownedWithTag userId year)).length
  numberChars year (count + 1)

/-- Client payment statistics (invoice.types.ts `ClientStats`). The source
field `paymentStd` holds `Math.sqrt` of the population variance; since the
square root is irrational in general, the model carries the variance itself
(`paymentVariance`), which determines `paymentStd` uniquely. -/
structure ClientStats where
  avgPaymentDays : ℚ
  latePaymentRate : ℚ
  paymentVariance : ℚ
  totalInvoices : Nat
  paymentTrend : ℚ
  deriving Repr, DecidableEq

/-- All-zero statistics, returned on an empty payment history. -/
def zeroStats : ClientStats :=
  { avgPaymentDays := 0, latePaymentRate := 0, paymentVariance := 0,
    totalInvoices := 0, paymentTrend := 0 }

/-- Milliseconds per day, the divisor `1000 * 60 * 60 * 24`. -/
def msPerDay : Int := 1000 * 60 * 60 * 24

/-- Days-to-pay per invoice: the source filters out null `paidDate` and maps
`Math.floor((paidDate - issueDate) / msPerDay)`; floor division `Int.fdiv`
is JavaScript `Math.floor` of the exact quotient. Inputs are
`(issueDate, paidDate)` pairs. -/
def paymentDaysOf (invoices : List (Int × Option Int)) : List Int :=
  invoices.filterMap fun inv =>
    match inv.2 with
    | some pd => some (Int.fdiv (pd - inv.1) msPerDay)
    | none => none

/-- invoice.service.ts `calculateClientStats`. -/
def calculateClientStats (invoices : List (Int × Option Int)) : ClientStats :=
  if invoices.length = 0 then zeroStats
  else
    let paymentDays := paymentDaysOf invoices
    if paymentDays.length = 0 then zeroStats
    else
      let n : ℚ := paymentDays.length
      let avgPaymentDays : ℚ := ((paymentDays.map (Int.cast · : Int → ℚ)).sum) / n
      let lateCount := (paymentDays.filter fun d => 30 < d).length
      let latePaymentRate : ℚ := (lateCount : ℚ) / n
      let variance : ℚ :=
        ((paymentDays.map fun d => ((d : ℚ) - avgPaymentDays) ^ 2).sum) / n
      let recentCount := min 5 paymentDays.length
      let recentDays := paymentDays.drop (paymentDays.length - recentCount)
      let recentAvg : ℚ := ((recentDays.map (Int.cast · : Int → ℚ)).sum) / (recentCount : ℚ)
      { avgPaymentDays := avgPaymentDays
        latePaymentRate := latePaymentRate
        paymentVariance := variance
        totalInvoices := paymentDays.length
        paymentTrend := avgPaymentDays - recentAvg }

/-- Reference statistics function written from the words of section 4.2 of
the specification (for the refinement claim): all zeros on an empty input;
otherwise mean, late fraction over threshold 30, population variance
(denominator N), and trend = mean minus mean of the last min(5, N) payment
days, over the invoices with non-null `paidDate`. Rational division by zero
is zero in Lean, which renders the all-null edge case. -/
def specComputeStats (invoices : List (Int × Option Int)) : ClientStats :=
  if invoices.length = 0 then zeroStats
  else
    let paymentDays := paymentDaysOf invoices
    let n : ℚ := paymentDays.length
    let avg : ℚ := ((paymentDays.map (Int.cast · : Int → ℚ)).sum) / n
    let late : ℚ := ((paymentDays.filter fun d => 30 < d).length : ℚ) / n
    let variance : ℚ := ((paymentDays.map fun d => ((d : ℚ) - avg) ^ 2).sum) / n
    let recentCount := min 5 paymentDays.length
    let recent := paymentDays.drop (paymentDays.length - recentCount)
    let recentAvg : ℚ := ((recent.map (Int.cast · : Int → ℚ)).sum) / (recentCount : ℚ)
    { avgPaymentDays := avg
      latePaymentRate := late
      paymentVariance := variance
      totalInvoices := paymentDays.length
      paymentTrend := avg - recentAvg }

/-- Request body of the ML prediction call (ml.types.ts
`PaymentPredictionRequest`). The source field `client_payment_std` carries
the square root of the variance; the model transports the variance (see
`ClientStats`); the gateway treats the body opaquely either way. -/
structure PaymentPredictionRequest where
  client_avg_payment_days : ℚ
  client_late_payment_rate : ℚ
  client_payment_std : ℚ
  client_total_invoices : Nat
  client_payment_trend : ℚ
  amount : ℚ
  issue_date : Int
  deriving Repr, DecidableEq

/-- Response body of the ML prediction call (ml.types.ts
`PaymentPredictionResponse`). -/
structure PaymentPredictionResponse where
  predicted_payment_days : ℚ
  confidence_score : ℚ
  predicted_payment_date : Int
  deriving Repr, DecidableEq

/-- ml.service.ts `predictPaymentTime`: posts `data` and returns the
response body, or `null` when the transport rejects (timeout, non-2xx,
malformed response). The transport outcome is the explicit `call`
parameter; the catch-all branch of the source maps every rejection to
`null`, never rethrowing. -/
def predictPaymentTime (_data : PaymentPredictionRequest)
    (call : Except String PaymentPredictionResponse) :
    Option PaymentPredictionResponse :=
  match call with
  | .ok r => some r
  | .error _ => none

/-- Request body for invoice creation (invoice.types.ts
`CreateInvoiceRequest`). -/
structure CreateInvoiceRequest where
  clientId : Nat
  amount : ℚ
  description : String
  items : Option (List InvoiceLineItem) := none
  dueDate : Int
  notes : Option String := none
  terms : Option String := none
  deriving Repr, DecidableEq

/-- Response of invoice creation. -/
structure CreateInvoiceResponse where
  invoice : Invoice
  message : String
  deriving Repr, DecidableEq

/-- Request body for invoice update (invoice.types.ts
`UpdateInvoiceRequest`); absent fields are `undefined` and leave the
column unchanged in a Prisma update. -/
structure UpdateInvoiceRequest where
  amount : Option ℚ := none
  description : Option String := none
  items : Option (List InvoiceLineItem) := none
  dueDate : Option Int := none
  notes : Option String := none
  terms : Option String := none
  status : Option InvoiceStatus := none
  deriving Repr, DecidableEq

/-- Response of invoice update. -/
structure UpdateInvoiceResponse where
  invoice : Invoice
  message : String
  deriving Repr, DecidableEq

/-- Request body of mark-as-paid (invoice.types.ts
`MarkInvoiceAsPaidRequest`). -/
structure MarkInvoiceAsPaidRequest where
  paidDate : Int
  notes : Option String := none
  deriving Repr, DecidableEq

/-- Income summary embedded in the mark-as-paid response. -/
structure IncomeSummary where
  id : Nat
  amount : ℚ
  loggedAt : Int
  deriving Repr, DecidableEq

/-- Response of mark-as-paid. -/
structure MarkInvoiceAsPaidResponse where
  invoice : Invoice
  income : IncomeSummary
  message : String
  deriving Repr, DecidableEq

/-- invoice.service.ts `serializeInvoice`: converts the `Prisma.Decimal`
amount to a JavaScript number; amounts are already rationals here, so this
is the identity on the row. -/
def serializeInvoice (i : Invoice) : Invoice := i

/-- The paid-history filter of the `db.invoice.findMany` query inside
`createInvoice`: invoices of the client with status paid and non-null
`paidDate` (the query does not filter by user). -/
def paidHistoryRow (clientId : Nat) (i : Invoice) : Bool :=
  i.clientId == clientId && decide (i.status = .paid) && i.paidDate.isSome

/-- Client payment statistics as `createInvoice` computes them over a list
of invoices. -/
def statsOfInvoices (clientId : Nat) (invoices : List Invoice) : ClientStats :=
  calculateClientStats
    ((invoices.filter (paidHistoryRow clientId)).map fun i => (i.issueDate, i.paidDate))

/-- The row that step 3 of `createInvoice` inserts: the request fields, the
generated number, and the column defaults of the migration (`status` draft,
`issueDate` now, `terms` default text, no payment or prediction data). -/
def newInvoiceRow (s : St) (userId : String) (data : CreateInvoiceRequest)
    (year : Nat) (now : Int) : Invoice :=
  { id := s.nextId, userId := userId, clientId := data.clientId,
    invoiceNumber := generateInvoiceNumber userId year s, amount := data.amount,
    description := data.description, items := data.items,
    status := .draft, issueDate := now, dueDate := data.dueDate,
    paidDate := none, incomeLogId := none,
    predictedPaymentDays := none, predictionConfidence := none,
    predictedPaymentDate := none, notes := data.notes,
    terms := some (data.terms.getD "Payment due within 30 days") }

/-- invoice.service.ts `createInvoice`. Steps of the source: resolve the
client and reject with `NotFoundError('Client not found')` when it is
missing or owned by another user (one check, one error for both cases);
generate the invoice number; insert the row (`status` defaults to `draft`,
`issueDate` to the current time, `terms` to the column default; the global
unique index on `invoiceNumber` makes a colliding insert fail, modelled by
the `uniqueViolation` branch); query the client's paid history, compute
statistics, and when `totalInvoices > 0` call the prediction gateway and,
on a non-null prediction, update the new row's prediction columns; finally
return the row AS CREATED (the pre-update record) in the response. -/
def createInvoice (userId : String) (data : CreateInvoiceRequest) (year : Nat)
    (now : Int) (mlCall : Except String PaymentPredictionResponse) (s : St) :
    Except Err CreateInvoiceResponse × St :=
  match findClient s data.clientId with
  | none => (.error (.notFound "Client not found"), s)
  | some client =>
    if client.userId ≠ userId then (.error (.notFound "Client not found"), s)
    else
      let invoiceNumber := generateInvoiceNumber userId year s
      if s.invoices.any fun i => i.invoiceNumber == invoiceNumber then
        (.error (.uniqueViolation "invoiceNumber"), s)
      else
        let inv : Invoice := newInvoiceRow s userId data year now
        let s1 : St :=
          { s with invoices := s.invoices ++ [inv], nextId := s.nextId + 1,
                   issuedLog := s.issuedLog ++ [(userId, year)] }
        let stats := statsOfInvoices data.clientId s1.invoices
        if stats.totalInvoices > 0 then
          let req : PaymentPredictionRequest :=
            { client_avg_payment_days := stats.avgPaymentDays,
              client_late_payment_rate := stats.latePaymentRate,
              client_payment_std := stats.paymentVariance,
              client_total_invoices := stats.totalInvoices,
              client_payment_trend := stats.paymentTrend,
              amount := data.amount, issue_date := now }
          match predictPaymentTime req mlCall with
          | some pred =>
            let s2 : St :=
              { s1 with invoices := s1.invoices.map fun i =>
                  if i.id == inv.id then
                    { i with
                      predictedPaymentDays := some pred.predicted_payment_days,
                      predictionConfidence := some pred.confidence_score,
                      predictedPaymentDate := some pred.predicted_payment_date }
                  else i }
            (.ok { invoice := serializeInvoice inv,
                   message := "Invoice created successfully" }, s2)
          | none =>
            (.ok { invoice := serializeInvoice inv,
                   message := "Invoice created successfully" }, s1)
        else
          (.ok { invoice := serializeInvoice inv,
                 message := "Invoice created successfully" }, s1)

/-- invoice.service.ts `getInvoiceById`: two sequential checks (row missing,
then row not owned by the caller) raising the identical
`NotFoundError('Invoice not found')`. Read-only, so only the result is
returned. -/
def getInvoiceById (userId : String) (invoiceId : Nat) (s : St) :
    Except Err Invoice :=
  match findInvoice s invoiceId with
  | none => .error (.notFound "Invoice not found")
  | some inv =>
    if inv.userId ≠ userId then .error (.notFound "Invoice not found")
    else .ok (serializeInvoice inv)

/-- invoice.service.ts `updateInvoice`. The paid guard of the source is
`existingInvoice.status === 'paid' && data.status !== 'paid'`: an update
carrying `status: 'paid'` passes the guard even on a paid invoice. Fields
absent from the request (`undefined`) keep the stored value. -/
def updateInvoice (userId : String) (invoiceId : Nat)
    (data : UpdateInvoiceRequest) (s : St) :
    Except Err UpdateInvoiceResponse × St :=
  match findInvoice s invoiceId with
  | none => (.error (.notFound "Invoice not found"), s)
  | some inv =>
    if inv.userId ≠ userId then (.error (.notFound "Invoice not found"), s)
    else if inv.status = .paid ∧ data.status ≠ some .paid then
      (.error (.generic "Cannot update a paid invoice"), s)
    else
      let updated : Invoice :=
        { inv with
          amount := data.amount.getD inv.amount,
          description := data.description.getD inv.description,
          items := match data.items with
            | some l => some l
            | none => inv.items,
          dueDate := data.dueDate.getD inv.dueDate,
          notes := match data.notes with
            | some v => some v
            | none => inv.notes,
          terms := match data.terms with
            | some v => some v
            | none => inv.terms,
          status := data.status.getD inv.status }
      (.ok { invoice := serializeInvoice updated,
             message := "Invoice updated successfully" },
       { s with invoices := s.invoices.map fun i =>
           if i.id == invoiceId then updated else i })

/-- invoice.service.ts `markInvoiceAsPaid`. Ownership failure and absence
raise the identical `NotFoundError('Invoice not found')`; an already-paid
invoice raises the plain `Error('Invoice is already marked as paid')`; the
happy path runs one `$transaction` creating the income log and updating the
invoice as a single atomic state change. The client is loaded through the
`include` of the query; a dangling `clientId` cannot occur under the
foreign-key constraint and is mapped to an error branch. -/
def markInvoiceAsPaid (userId : String) (invoiceId : Nat)
    (data : MarkInvoiceAsPaidRequest) (s : St) :
    Except Err MarkInvoiceAsPaidResponse × St :=
  match findInvoice s invoiceId with
  | none => (.error (.notFound "Invoice not found"), s)
  | some inv =>
    if inv.userId ≠ userId then (.error (.notFound "Invoice not found"), s)
    else if inv.status = .paid then
      (.error (.generic "Invoice is already marked as paid"), s)
    else
      match findClient s inv.clientId with
      | none => (.error (.notFound "Client not found"), s)
      | some client =>
        let paidDate := data.paidDate
        let income : IncomeLog :=
          { id := s.nextId, userId := userId, amount := inv.amount,
            clientId := some inv.clientId, clientName := some client.name,
            projectName := some inv.description, source := "invoice",
            notes := some (data.notes.getD
              ("Payment for invoice " ++ String.mk inv.invoiceNumber)),
            loggedAt := paidDate }
        let updated : Invoice :=
          { inv with status := .paid, paidDate := some paidDate,
                     incomeLogId := some income.id }
        (.ok { invoice := serializeInvoice updated,
               income := { id := income.id, amount := income.amount,
                           loggedAt := income.loggedAt },
               message := "Invoice marked as paid and income logged successfully" },
         { s with incomes := s.incomes ++ [income],
                  invoices := s.invoices.map fun i =>
                    if i.id == invoiceId then updated else i,
                  nextId := s.nextId + 1 })

/-- invoice.service.ts `deleteInvoice`: ownership failure and absence raise
the identical `NotFoundError('Invoice not found')`; a paid invoice raises
the plain `Error('Cannot delete paid invoice')`; otherwise the row is
removed (the income foreign key is declared ON DELETE SET NULL, and no
income row references a non-paid invoice). -/
def deleteInvoice (userId : String) (invoiceId : Nat) (s : St) :
    Except Err String × St :=
  match findInvoice s invoiceId with
  | none => (.error (.notFound "Invoice not found"), s)
  | some inv =>
    if inv.userId ≠ userId then (.error (.notFound "Invoice not found"), s)
    else if inv.status = .paid then
      (.error (.generic "Cannot delete paid invoice"), s)
    else
      (.ok "Invoice deleted successfully",
       { s with invoices := s.invoices.filter fun i => !(i.id == invoiceId) })

/-- One call of an exposed mutating operation, with its clock readings and
transport outcome as payload. -/
inductive Op where
  | create (userId : String) (data : CreateInvoiceRequest) (year : Nat)
      (now : Int) (mlCall : Except String PaymentPredictionResponse)
  | update (userId : String) (invoiceId : Nat) (data : UpdateInvoiceRequest)
  | markPaid (userId : String) (invoiceId : Nat) (data : MarkInvoiceAsPaidRequest)
  | delete (userId : String) (invoiceId : Nat)

/-- State after running one operation (the state component of the call,
kept also when the call reports an error). -/
def applyOp (op : Op) (s : St) : St :=
  match op with
  | .create u d y n m => (createInvoice u d y n m s).2
  | .update u i d => (updateInvoice u i d s).2
  | .markPaid u i d => (markInvoiceAsPaid u i d s).2
  | .delete u i => (deleteInvoice u i s).2

/-- States reachable from an initial state by operations satisfying a
side condition `P`. -/
inductive ReachableW (P : Op → Prop) : St → Prop where
  | init (clients : List Client) (nextId : Nat) : ReachableW P (initSt clients nextId)
  | step (s : St) (op : Op) : ReachableW P s → P op → ReachableW P (applyOp op s)

/-- States reachable by any sequence of the exposed operations. -/
def Reachable : St → Prop := ReachableW fun _ => True

/-- Side condition: the operation is not a delete. -/
def opNoDelete : Op → Prop
  | .delete _ _ => False
  | _ => True

/-- Side condition: the operation is not an update carrying
`status: 'paid'` in its request body. -/
def opNoStatusPaid : Op → Prop
  | .update _ _ d => d.status ≠ some .paid
  | _ => True

/-- States reachable without any delete. -/
def ReachableND : St → Prop := ReachableW opNoDelete

/-- States reachable without any update request carrying `status: 'paid'`. -/
def ReachableNP : St → Prop := ReachableW opNoStatusPaid

/-- Income record that section 4.1 of the specification prescribes for a
mark-paid transition of invoice `inv` owned by `u` with client `c`:
amount of the invoice, client id and name, description as project name,
source `invoice`, logged at the paid date (with the default note the source
supplies when the request has none). -/
def specIncomeRecord (s : St) (u : String) (inv : Invoice) (c : Client)
    (req : MarkInvoiceAsPaidRequest) : IncomeLog :=
  { id := s.nextId, userId := u, amount := inv.amount,
    clientId := some inv.clientId, clientName := some c.name,
    projectName := some inv.description, source := "invoice",
    notes := some (req.notes.getD
      ("Payment for invoice " ++ String.mk inv.invoiceNumber)),
    loggedAt := req.paidDate }

/-- An invoice row after the mark-paid update of the transaction: status
paid, the given paid date, and the link to the created income record. -/
def paidVersion (inv : Invoice) (paidDate : Int) (incomeId : Nat) : Invoice :=
  { inv with
    status := .paid, paidDate := some paidDate, incomeLogId := some incomeId }

/-- An invoice row after the prediction-columns update that `createInvoice`
performs when the gateway returned a prediction. -/
def predictedVersion (i : Invoice) (p : PaymentPredictionResponse) : Invoice :=
  { i with
    predictedPaymentDays := some p.predicted_payment_days,
    predictionConfidence := some p.confidence_score,
    predictedPaymentDate := some p.predicted_payment_date }

/-- The invoice row after `updateInvoice` applied a request: absent fields
keep the stored value. -/
def updatedRow (inv : Invoice) (data : UpdateInvoiceRequest) : Invoice :=
  { inv with
    amount := data.amount.getD inv.amount,
    description := data.description.getD inv.description,
    items := match data.items with
      | some l => some l
      | none => inv.items,
    dueDate := data.dueDate.getD inv.dueDate,
    notes := match data.notes with
      | some v => some v
      | none => inv.notes,
    terms := match data.terms with
      | some v => some v
      | none => inv.terms,
    status := data.status.getD inv.status }

/-- The state after a successful `createInvoice` (optionally followed by
the prediction-columns update when the gateway returned `p = some pred`). -/
def afterCreate (s : St) (u : String) (data : CreateInvoiceRequest)
    (year : Nat) (now : Int) (p : Option PaymentPredictionResponse) : St :=
  let row := newInvoiceRow s u data year now
  let s1 : St :=
    { s with
      invoices := s.invoices ++ [row], nextId := s.nextId + 1,
      issuedLog := s.issuedLog ++ [(u, year)] }
  match p with
  | none => s1
  | some pred =>
    { s1 with
      invoices := s1.invoices.map fun i =>
        if i.id == row.id then predictedVersion i pred else i }

/-- The state after a successful `updateInvoice` of invoice `iid` found as
`inv`. -/
def afterUpdate (s : St) (iid : Nat) (inv : Invoice)
    (data : UpdateInvoiceRequest) : St :=
  { s with
    invoices := s.invoices.map fun i =>
      if i.id == iid then updatedRow inv data else i }

/-- The state after a successful `markInvoiceAsPaid` transaction. -/
def afterMarkPaid (s : St) (u : String) (iid : Nat)
    (data : MarkInvoiceAsPaidRequest) (inv : Invoice) (c : Client) : St :=
  { s with
    incomes := s.incomes ++ [specIncomeRecord s u inv c data],
    invoices := s.invoices.map fun i =>
      if i.id == iid then paidVersion inv data.paidDate s.nextId else i,
    nextId := s.nextId + 1 }

/-- The state after a successful `deleteInvoice`. -/
def afterDelete (s : St) (iid : Nat) : St :=
  { s with invoices := s.invoices.filter fun i => !(i.id == iid) }

/-- Well-formedness of identifiers: every stored id is below the allocator
and invoice ids are duplicate-free. -/
def idsWf (s : St) : Prop :=
  (∀ inv ∈ s.invoices, inv.id < s.nextId) ∧
  (∀ rec ∈ s.incomes, rec.id < s.nextId) ∧
  (s.invoices.map Invoice.id).Nodup

/-- The income-link invariant of the claim, at the level of row lists:
`incomeLogId` is set exactly on paid invoices, and on paid invoices it
resolves to an income record with the invoice's amount, logged at the
invoice's paid date. -/
def linkInv (invoices : List Invoice) (incomes : List IncomeLog) : Prop :=
  (∀ inv ∈ invoices, (inv.incomeLogId ≠ none ↔ inv.status = .paid)) ∧
  (∀ inv ∈ invoices, inv.status = .paid →
    ∃ rid rec, inv.incomeLogId = some rid ∧
      incomes.find? (fun r => r.id == rid) = some rec ∧
      rec.amount = inv.amount ∧ some rec.loggedAt = inv.paidDate)

/-- The income-link invariant on a state. -/
def incomeLinkInvariant (s : St) : Prop := linkInv s.invoices s.incomes

/-- All stored invoice numbers are pairwise distinct (the uniqueness the
claim asserts per owner, in fact global). -/
def numbersNodup (s : St) : Prop :=
  (s.invoices.map Invoice.invoiceNumber).Nodup

/-- The numbers of an owner's invoices for one year, in storage order. -/
def ownerYearNumbers (s : St) (u : String) (y : Nat) : List (List Char) :=
  (s.invoices.filter (ownedWithTag u y)).map Invoice.invoiceNumber

/-- Number of invoices an owner has issued in a year according to the
ghost issuance trace. -/
def issuedCount (s : St) (u : String) (y : Nat) : Nat :=
  (s.issuedLog.filter fun e => decide (e.1 = u) && decide (e.2 = y)).length

/-- The numbering invariant: for every owner and year, the stored numbers
are exactly `INV-<y>-001 .. INV-<y>-<n>` in creation order, and `n` is the
count of invoices that owner issued in that year. -/
def numberingInv (s : St) : Prop :=
  ∀ u y,
    ownerYearNumbers s u y =
      (List.range (ownerYearNumbers s u y).length).map
        (fun k => numberChars y (k + 1)) ∧
    (ownerYearNumbers s u y).length = issuedCount s u y

/-- Concrete client owned by user alice, for witnesses and counterexamples. -/
def demoClient : Client := { id := 1, userId := "alice", name := "Acme" }

/-- Concrete client owned by user bob. -/
def demoClientB : Client := { id := 2, userId := "bob", name := "BobCo" }

/-- Concrete initial state with the two clients and fresh ids from 10. -/
def demoSt : St := initSt [demoClient, demoClientB] 10

/-- Concrete creation request of alice against her client. -/
def demoCreate : CreateInvoiceRequest :=
  { clientId := 1, amount := 100, description := "Website", dueDate := 2592000000 }

/-- Concrete creation request of bob against his client. -/
def demoCreateB : CreateInvoiceRequest :=
  { clientId := 2, amount := 50, description := "Logo", dueDate := 2592000000 }

/-- Transport outcome standing for a failed prediction call. -/
def mlDown : Except String PaymentPredictionResponse := .error "timeout"

/-- Concrete prediction payload of a successful gateway call. -/
def demoPred : PaymentPredictionResponse :=
  { predicted_payment_days := 12, confidence_score := 17 / 20,
    predicted_payment_date := 1036800000 }

/-- Transport outcome standing for a successful prediction call. -/
def mlOk : Except String PaymentPredictionResponse := .ok demoPred

/-- State after alice created invoice 10 (number INV-2025-001). -/
def demoS1 : St := (createInvoice "alice" demoCreate 2025 0 mlDown demoSt).2

/-- State after invoice 10 was marked paid (income log 11 created). -/
def demoS2 : St := (markInvoiceAsPaid "alice" 10 { paidDate := 86400000 } demoS1).2

/-- State after invoice 10 was deleted again from `demoS1`. -/
def demoS1d : St := (deleteInvoice "alice" 10 demoS1).2



/-- The invoice row created by alice's first `createInvoice` in `demoSt`. -/
def demoInv1 : Invoice :=
  { id := 10, userId := "alice", clientId := 1,
    invoiceNumber := "INV-2025-001".toList, amount := 100,
    description := "Website", items := none, status := .draft,
    issueDate := 0, dueDate := 2592000000, paidDate := none,
    incomeLogId := none, predictedPaymentDays := none,
    predictionConfidence := none, predictedPaymentDate := none,
    notes := none, terms := some "Payment due within 30 days" }

/-- Invoice 10 after it was marked paid in `demoS2`. -/
def demoInv1Paid : Invoice :=
  { demoInv1 with
    status := .paid, paidDate := some 86400000, incomeLogId := some 11 }

/-- A second creation request of alice, used once her client has payment
history. -/
def demoCreate2 : CreateInvoiceRequest :=
  { clientId := 1, amount := 200, description := "App", dueDate := 5184000000 }


/-- Update request carrying `status: 'paid'` together with a new amount,
used against an already paid invoice. -/
def demoUpd : UpdateInvoiceRequest := { amount := some 999, status := some .paid }

/-- The paid invoice 10 after `demoUpd` went through: the amount of a paid
invoice changed while its income record kept the old amount. -/
def demoInv1Mut : Invoice := { demoInv1Paid with amount := 999 }

/-! Helper lemmas about list lookups under row replacement, and about the
decimal rendering inside invoice numbers. -/

/-- A `find?` by id over a list where the row with id `iid` was replaced by
`upd` (with `upd.id = iid`) finds `upd`, provided some row with that id was
found before. -/
theorem find?_map_replace (l : List Invoice) (iid : Nat) (inv upd : Invoice)
    (hf : l.find? (fun i => i.id == iid) = some inv) (hupd : upd.id = iid) :
    (l.map fun i => if i.id == iid then upd else i).find?
      (fun i => i.id == iid) = some upd := by
  induction l with
  | nil => simp at hf
  | cons a t ih =>
    by_cases ha : a.id = iid
    · simp [List.find?, ha, hupd]
    · rw [List.find?_cons_of_neg _ (by simp [ha])] at hf
      simp only [List.map_cons, if_neg (by simp [ha] : ¬(a.id == iid) = true)]
      rw [List.find?_cons_of_neg _ (by simp [ha])]
      exact ih hf

/-- A `find?` by an id different from the replaced one is unchanged by the
replacement. -/
theorem find?_map_other (l : List Invoice) (iid j : Nat) (upd : Invoice)
    (hupd : upd.id = iid) (hne : j ≠ iid) :
    (l.map fun i => if i.id == iid then upd else i).find? (fun i => i.id == j)
      = l.find? (fun i => i.id == j) := by
  induction l with
  | nil => rfl
  | cons a t ih =>
    by_cases ha : a.id = iid
    · have hj : ¬ a.id = j := by omega
      simp only [List.map_cons, if_pos (by simp [ha] : (a.id == iid) = true)]
      rw [List.find?_cons_of_neg _ (by simp [hupd]; omega),
          List.find?_cons_of_neg _ (by simp [hj])]
      exact ih
    · by_cases hj : a.id = j
      · simp only [List.map_cons, if_neg (by simp [ha] : ¬(a.id == iid) = true)]
        rw [List.find?_cons_of_pos _ (by simp [hj]),
            List.find?_cons_of_pos _ (by simp [hj])]
      · simp only [List.map_cons, if_neg (by simp [ha] : ¬(a.id == iid) = true)]
        rw [List.find?_cons_of_neg _ (by simp [hj]),
            List.find?_cons_of_neg _ (by simp [hj])]
        exact ih

/-- Filtering and projecting a pointwise-rewritten list is unchanged when
the rewrite preserves the filter predicate and the projection on every
element. -/
theorem filter_map_proj_congr {α : Type} (l : List Invoice)
    (h : Invoice → Invoice) (p : Invoice → Bool) (f : Invoice → α)
    (hm : ∀ i ∈ l, p (h i) = p i ∧ f (h i) = f i) :
    ((l.map h).filter p).map f = (l.filter p).map f := by
  induction l with
  | nil => rfl
  | cons a t ih =>
    have ⟨hp, hf⟩ := hm a (by simp)
    have ht := ih fun i hi => hm i (by simp [hi])
    by_cases hpa : p a = true
    · simp [List.filter_cons, hp, hpa, hf, ht]
    · simp only [Bool.not_eq_true] at hpa
      simp [List.filter_cons, hp, hpa, ht]

/-- Rows found by `find?` by id are determined by the id when the id
column is duplicate-free. -/
theorem mem_eq_of_find?_id (l : List Invoice) (iid : Nat) (inv : Invoice)
    (hf : l.find? (fun i => i.id == iid) = some inv)
    (hnd : (l.map Invoice.id).Nodup) :
    ∀ i ∈ l, i.id = iid → i = inv := by
  intro i hi hiid
  have hmem : inv ∈ l := List.mem_of_find?_eq_some hf
  have hinv : inv.id = iid := by
    have := List.find?_some hf
    simpa using this
  exact List.inj_on_of_nodup_map hnd hi hmem (by rw [hiid, hinv])

/-- Appending a row that fails a filter predicate leaves the filtered list
unchanged. -/
theorem filter_append_single_neg {α : Type} (l : List α) (x : α)
    (p : α → Bool) (hp : p x = false) :
    (l ++ [x]).filter p = l.filter p := by
  simp [List.filter_append, List.filter_cons, hp]

/-- Appending a row that satisfies a filter predicate appends it to the
filtered list. -/
theorem filter_append_single_pos {α : Type} (l : List α) (x : α)
    (p : α → Bool) (hp : p x = true) :
    (l ++ [x]).filter p = l.filter p ++ [x] := by
  simp [List.filter_append, List.filter_cons, hp]

/-- Digit characters have code points between 48 and 57. -/
theorem digitChar_toNat (d : Nat) (hd : d < 10) :
    (digitChar d).toNat = 48 + d := by
  interval_cases d <;> rfl

/-- Digit characters are never the dash. -/
theorem digitChar_ne_dash (d : Nat) (hd : d < 10) : digitChar d ≠ '-' := by
  interval_cases d <;> decide

/-- With sufficient fuel, the rendering contains no dash. -/
theorem digitsGo_no_dash : ∀ (fuel n : Nat), n ≤ fuel → '-' ∉ digitsGo fuel n := by
  intro fuel
  induction fuel with
  | zero =>
    intro n h
    have hn : n = 0 := by omega
    subst hn
    simp only [digitsGo, List.mem_singleton]
    exact fun he => digitChar_ne_dash 0 (by omega) he.symm
  | succ fuel ih =>
    intro n h
    by_cases h10 : n < 10
    · simp only [digitsGo, if_pos h10, List.mem_singleton]
      exact fun he => digitChar_ne_dash n h10 he.symm
    · simp only [digitsGo, if_neg h10, List.mem_append, List.mem_singleton]
      rintro (hm | he)
      · exact ih (n / 10) (by omega) hm
      · exact digitChar_ne_dash (n % 10) (Nat.mod_lt _ (by omega)) he.symm

/-- The decimal rendering contains only digit characters, never a dash. -/
theorem natToDigits_no_dash (n : Nat) : '-' ∉ natToDigits n :=
  digitsGo_no_dash n n le_rfl

/-- Positional evaluation of a digit string with one more digit. -/
theorem digitsVal_append_digit (xs : List Char) (c : Char) :
    digitsVal (xs ++ [c]) = digitsVal xs * 10 + (c.toNat - 48) := by
  simp [digitsVal, List.foldl_append]

/-- With sufficient fuel, positional evaluation inverts the rendering. -/
theorem digitsGo_val : ∀ (fuel n : Nat), n ≤ fuel →
    digitsVal (digitsGo fuel n) = n := by
  intro fuel
  induction fuel with
  | zero =>
    intro n h
    have hn : n = 0 := by omega
    subst hn
    simp [digitsGo, digitsVal, digitChar_toNat 0 (by omega)]
  | succ fuel ih =>
    intro n h
    by_cases h10 : n < 10
    · simp [digitsGo, if_pos h10, digitsVal, digitChar_toNat n h10]
    · rw [digitsGo, if_neg h10, digitsVal_append_digit, ih (n / 10) (by omega),
          digitChar_toNat (n % 10) (Nat.mod_lt _ (by omega))]
      omega

/-- Positional evaluation inverts the decimal rendering. -/
theorem digitsVal_natToDigits (n : Nat) : digitsVal (natToDigits n) = n :=
  digitsGo_val n n le_rfl

/-- The decimal rendering is injective. -/
theorem natToDigits_inj {m n : Nat} (h : natToDigits m = natToDigits n) :
    m = n := by
  rw [← digitsVal_natToDigits m, h, digitsVal_natToDigits]

/-- Leading zeros do not change the positional value. -/
theorem digitsVal_pad3 (cs : List Char) : digitsVal (pad3 cs) = digitsVal cs := by
  have hz : ∀ k, List.foldl (fun a c => a * 10 + (c.toNat - 48)) 0
      (List.replicate k '0') = 0 := by
    intro k
    induction k with
    | zero => rfl
    | succ k ihk => simpa [List.replicate_succ] using ihk
  simp [pad3, digitsVal, List.foldl_append, hz]

/-- Invoice numbers determine their sequence component. -/
theorem numberChars_inj_seq {y k j : Nat} (h : numberChars y k = numberChars y j) :
    k = j := by
  unfold numberChars at h
  simp only [List.append_assoc] at h
  have h1 := List.append_cancel_left h
  have h2' := List.append_cancel_left h1
  have h2 := List.append_cancel_left h2'
  have := congrArg digitsVal h2
  rw [digitsVal_pad3, digitsVal_pad3, digitsVal_natToDigits,
      digitsVal_natToDigits] at this
  exact this

/-- Two prefixes of a common list are comparable. -/
theorem prefixTotal {α : Type} {l₁ l₂ l₃ : List α} (h₁ : l₁ <+: l₃)
    (h₂ : l₂ <+: l₃) : l₁ <+: l₂ ∨ l₂ <+: l₁ := by
  rcases Nat.le_total l₁.length l₂.length with hle | hle
  · left
    have e₁ := List.prefix_iff_eq_take.mp h₁
    have e₂ := List.prefix_iff_eq_take.mp h₂
    have e : l₂.take l₁.length = l₁ := by
      rw [e₂, List.take_take, min_eq_left hle]
      exact e₁.symm
    refine ⟨l₂.drop l₁.length, ?_⟩
    nth_rewrite 1 [← e]
    exact List.take_append_drop _ _
  · right
    have e₁ := List.prefix_iff_eq_take.mp h₁
    have e₂ := List.prefix_iff_eq_take.mp h₂
    have e : l₁.take l₂.length = l₂ := by
      rw [e₁, List.take_take, min_eq_left hle]
      exact e₂.symm
    refine ⟨l₁.drop l₂.length, ?_⟩
    nth_rewrite 1 [← e]
    exact List.take_append_drop _ _

/-- If a dash-terminated dash-free block is a prefix of another
dash-terminated dash-free block, the blocks coincide. -/
theorem dashAux {a b : List Char} (hb : '-' ∉ b)
    (h : a ++ ['-'] <+: b ++ ['-']) : a = b := by
  rcases prefixTotal h (List.prefix_append b ['-']) with h2 | h2
  · exact absurd (h2.sublist.subset (by simp)) hb
  · have hlb : b.length ≤ a.length + 1 := by simpa using h2.length_le
    have hla : a.length + 1 ≤ b.length + 1 := by simpa using h.length_le
    rcases Nat.lt_or_ge b.length (a.length + 1) with hlt | hge
    · have heq : a ++ ['-'] = b ++ ['-'] := h.eq_of_length (by simp; omega)
      exact List.append_cancel_right heq
    · have hb2 : b = a ++ ['-'] := h2.eq_of_length (by simp; omega)
      exact absurd (by simp [hb2]) hb

/-- A dash-terminated dash-free block that is a prefix of a dash-terminated
dash-free block followed by anything determines the block. -/
theorem dashDiscrim {a b p : List Char} (ha : '-' ∉ a) (hb : '-' ∉ b)
    (h : a ++ ['-'] <+: (b ++ ['-']) ++ p) : a = b := by
  rcases prefixTotal h (List.prefix_append (b ++ ['-']) p) with h1 | h1
  · exact dashAux hb h1
  · exact (dashAux ha h1).symm

/-- The year prefix `INV-<y>-` starts an invoice number `INV-<y'>-<seq>`
exactly when the years agree. -/
theorem yearTag_prefix_numberChars {y y' k : Nat} :
    yearTag y <+: numberChars y' k ↔ y = y' := by
  constructor
  · intro h
    unfold yearTag numberChars at h
    simp only [List.append_assoc] at h
    have h1 : natToDigits y ++ ['-'] <+:
        (natToDigits y' ++ ['-']) ++ pad3 (natToDigits k) := by
      have := (List.prefix_append_right_inj "INV-".toList).mp
        (by simpa [List.append_assoc] using h)
      simpa [List.append_assoc] using this
    exact natToDigits_inj
      (dashDiscrim (natToDigits_no_dash y) (natToDigits_no_dash y') h1)
  · rintro rfl
    refine ⟨pad3 (natToDigits k), ?_⟩
    simp [yearTag, numberChars, List.append_assoc]

/-- Evaluation form: the filter of the numbering count query on a row
carrying a generated number. -/
theorem ownedWithTag_gen (u u' : String) (y y' k : Nat) (i : Invoice)
    (hn : i.invoiceNumber = numberChars y' k) (hu : i.userId = u') :
    ownedWithTag u y i = (decide (u' = u) && decide (y = y')) := by
  simp only [ownedWithTag, hn, hu]
  by_cases hyy : y = y' <;> by_cases huu : u' = u <;>
    simp [hyy, huu, yearTag_prefix_numberChars]

/-- C8: `calculateClientStats` agrees with the reference definition of
section 4.2 of the specification on every input, and on the single
35-day invoice it yields a late-payment rate of 1, an average of 35 days
and a zero variance (hence a zero population standard deviation, the
square root of the variance). -/
theorem calculateClientStats_meets_spec :
    (∀ invs : List (Int × Option Int),
       calculateClientStats invs = specComputeStats invs) ∧
    calculateClientStats [(0, some (35 * msPerDay))] =
      { avgPaymentDays := 35, latePaymentRate := 1, paymentVariance := 0,
        totalInvoices := 1, paymentTrend := 0 } := by
  constructor
  · intro invs
    unfold calculateClientStats specComputeStats
    by_cases h0 : invs.length = 0
    · simp [h0]
    · by_cases hp : (paymentDaysOf invs).length = 0
      · have hnil : paymentDaysOf invs = [] := List.length_eq_zero.mp hp
        simp [h0, hp, hnil, zeroStats]
      · simp [h0, hp]
  · have hd : paymentDaysOf [(0, some (35 * msPerDay))] = [35] := by decide
    simp [calculateClientStats, hd]

/-- C1: for an owned, not-yet-paid invoice, `markInvoiceAsPaid` succeeds and,
in one atomic transaction, appends exactly the income record prescribed by the
specification (amount, client id, client name, project name, source
`invoice`, logged at the paid date) and updates the same invoice to paid with
that paid date and with `incomeLogId` linking the new record; every other
invoice is untouched. Conversely every failing call leaves the state exactly
as it was, so no reachable outcome has an orphaned income record or a
falsely-paid invoice. -/
theorem markInvoiceAsPaid_atomic_spec (s : St) (u : String) (iid : Nat)
    (req : MarkInvoiceAsPaidRequest) (inv : Invoice) (c : Client)
    (hf : findInvoice s iid = some inv) (hu : inv.userId = u)
    (hnp : inv.status ≠ .paid) (hc : findClient s inv.clientId = some c)
    (hfresh : ∀ r ∈ s.incomes, r.id ≠ s.nextId) :
    (∃ resp s',
      markInvoiceAsPaid u iid req s = (.ok resp, s') ∧
      s'.incomes = s.incomes ++ [specIncomeRecord s u inv c req] ∧
      findIncome s' s.nextId = some (specIncomeRecord s u inv c req) ∧
      findInvoice s' iid = some (paidVersion inv req.paidDate s.nextId) ∧
      (∀ j, j ≠ iid → findInvoice s' j = findInvoice s j) ∧
      resp.invoice = paidVersion inv req.paidDate s.nextId ∧
      resp.income = { id := s.nextId, amount := inv.amount,
                      loggedAt := req.paidDate }) ∧
    (∀ (s₀ : St) (e : Err), (markInvoiceAsPaid u iid req s₀).1 = .error e →
      (markInvoiceAsPaid u iid req s₀).2 = s₀) := by
  constructor
  · have hid : inv.id = iid := by simpa using List.find?_some hf
    simp only [markInvoiceAsPaid, hf, hc]
    rw [if_neg (by simp [hu]), if_neg hnp]
    refine ⟨_, _, rfl, ?_, ?_, ?_, ?_, ?_, ?_⟩
    · simp [specIncomeRecord]
    · rw [findIncome, List.find?_append,
          List.find?_eq_none.mpr fun r hr => by simp [hfresh r hr]]
      simp [specIncomeRecord]
    · rw [findInvoice]
      exact find?_map_replace s.invoices iid inv _ hf hid
    · intro j hj
      rw [findInvoice, findInvoice]
      exact find?_map_other s.invoices iid j _ hid hj
    · rfl
    · rfl
  · intro s₀ e h
    unfold markInvoiceAsPaid at h ⊢
    rcases hfi : findInvoice s₀ iid with _ | inv'
    · simp [hfi]
    · simp only [hfi] at h ⊢
      by_cases h1 : inv'.userId ≠ u
      · simp [h1]
      · by_cases h2 : inv'.status = .paid
        · simp [h1, h2]
        · rcases hfc : findClient s₀ inv'.clientId with _ | c'
          · simp [h1, h2, hfc]
          · simp [h1, h2, hfc] at h

/-- Witness for C1 at a concrete input: alice's freshly created invoice 10
is marked paid in `demoS1`, the hypotheses holding by computation. -/
theorem markInvoiceAsPaid_atomic_spec_witness :
    ∃ resp s',
      markInvoiceAsPaid "alice" 10 { paidDate := 86400000 } demoS1 =
        (.ok resp, s') ∧
      s'.incomes = demoS1.incomes ++
        [specIncomeRecord demoS1 "alice" demoInv1 demoClient
          { paidDate := 86400000 }] :=
  match (markInvoiceAsPaid_atomic_spec demoS1 "alice" 10 { paidDate := 86400000 }
      demoInv1 demoClient (by decide) (by decide) (by decide) (by decide)
      (by decide)).1 with
  | ⟨resp, s', h1, h2, _⟩ => ⟨resp, s', h1, h2⟩

/-- C4 counterexample: marking the already-paid invoice 10 paid again raises
the plain thrown `Error('Invoice is already marked as paid')`, which is not
of the `ConflictError` class (the service never constructs a `ConflictError`
here), while the state is indeed unchanged. -/
theorem mark_paid_twice_error_not_conflict :
    (markInvoiceAsPaid "alice" 10 { paidDate := 172800000 } demoS2).1 =
      .error (.generic "Invoice is already marked as paid") ∧
    errIsConflict (Err.generic "Invoice is already marked as paid") = false ∧
    (markInvoiceAsPaid "alice" 10 { paidDate := 172800000 } demoS2).2 = demoS2 := by
  refine ⟨by decide, by decide, by decide⟩

/-- C4 amended: `markInvoiceAsPaid` on an owned, already-paid invoice fails
with the plain generic `Error('Invoice is already marked as paid')` (HTTP
500 through the fallback error handler, not a `ConflictError`) and returns
the state unchanged: no income record is created and the invoice keeps all
its fields. -/
theorem mark_paid_on_paid_generic_error_no_change (s : St) (u : String)
    (iid : Nat) (req : MarkInvoiceAsPaidRequest) (inv : Invoice)
    (hf : findInvoice s iid = some inv) (hu : inv.userId = u)
    (hp : inv.status = .paid) :
    markInvoiceAsPaid u iid req s =
      (.error (.generic "Invoice is already marked as paid"), s) := by
  simp only [markInvoiceAsPaid, hf]
  rw [if_neg (by simp [hu]), if_pos hp]

/-- Witness for the amended C4 at a concrete input. -/
theorem mark_paid_on_paid_generic_error_no_change_witness :
    markInvoiceAsPaid "alice" 10 { paidDate := 172800000 } demoS2 =
      (.error (.generic "Invoice is already marked as paid"), demoS2) :=
  mark_paid_on_paid_generic_error_no_change demoS2 "alice" 10
    { paidDate := 172800000 } demoInv1Paid (by decide) (by decide) (by decide)

/-- C3 (code bug): the guard of `updateInvoice` is
`status === 'paid' && data.status !== 'paid'`, so a request that itself
carries `status: 'paid'` slips through and mutates a PAID invoice: in
`demoS2` invoice 10 is paid with amount 100, yet the update succeeds and
stores amount 999 (the deletion path, by contrast, rejects the paid invoice
with a plain thrown `Error`, no dedicated precondition-failed class
existing in the code base). -/
theorem paid_invoice_mutated_by_status_paid_update :
    (updateInvoice "alice" 10 demoUpd demoS2).1 =
      .ok { invoice := demoInv1Mut, message := "Invoice updated successfully" } ∧
    findInvoice (updateInvoice "alice" 10 demoUpd demoS2).2 10 = some demoInv1Mut ∧
    demoInv1Mut.status = .paid ∧
    demoInv1Mut.amount = 999 ∧
    demoInv1Paid.amount = 100 ∧
    deleteInvoice "alice" 10 demoS2 =
      (.error (.generic "Cannot delete paid invoice"), demoS2) := by
  refine ⟨by decide, by decide, by decide, by decide, by decide, by decide⟩

/-- A lookup by id over rows extended with a fresh row finds the new row. -/
theorem findInvoice_append_fresh (l : List Invoice) (inv : Invoice)
    (hl : ∀ i ∈ l, i.id ≠ inv.id) :
    (l ++ [inv]).find? (fun i => i.id == inv.id) = some inv := by
  rw [List.find?_append, List.find?_eq_none.mpr fun i hi => by simp [hl i hi]]
  simp

/-- C9: whether the referenced invoice (or, for `createInvoice`, the
referenced client) does not exist at all or exists but belongs to another
user, every exposed operation fails with the one identical
`NotFoundError` carrying the same message, and mutating operations leave
the state unchanged — so a caller cannot distinguish another user's
resource from a nonexistent one. -/
theorem ownership_indistinguishable_from_absence
    (s : St) (u : String) (iid : Nat) (cdata : CreateInvoiceRequest)
    (udata : UpdateInvoiceRequest) (mdata : MarkInvoiceAsPaidRequest)
    (year : Nat) (now : Int) (ml : Except String PaymentPredictionResponse)
    (hinv : ∀ inv ∈ s.invoices, inv.id = iid → inv.userId ≠ u)
    (hcl : ∀ c ∈ s.clients, c.id = cdata.clientId → c.userId ≠ u) :
    getInvoiceById u iid s = .error (.notFound "Invoice not found") ∧
    updateInvoice u iid udata s = (.error (.notFound "Invoice not found"), s) ∧
    markInvoiceAsPaid u iid mdata s =
      (.error (.notFound "Invoice not found"), s) ∧
    deleteInvoice u iid s = (.error (.notFound "Invoice not found"), s) ∧
    createInvoice u cdata year now ml s =
      (.error (.notFound "Client not found"), s) := by
  have hinv' : ∀ inv, findInvoice s iid = some inv → inv.userId ≠ u := by
    intro inv hf
    exact hinv inv (List.mem_of_find?_eq_some hf)
      (by simpa using List.find?_some hf)
  have hcl' : ∀ c, findClient s cdata.clientId = some c → c.userId ≠ u := by
    intro c hf
    exact hcl c (List.mem_of_find?_eq_some hf)
      (by simpa using List.find?_some hf)
  refine ⟨?_, ?_, ?_, ?_, ?_⟩
  · rcases hfi : findInvoice s iid with _ | inv
    · simp [getInvoiceById, hfi]
    · simp [getInvoiceById, hfi, hinv' inv hfi]
  · rcases hfi : findInvoice s iid with _ | inv
    · simp [updateInvoice, hfi]
    · simp [updateInvoice, hfi, hinv' inv hfi]
  · rcases hfi : findInvoice s iid with _ | inv
    · simp [markInvoiceAsPaid, hfi]
    · simp [markInvoiceAsPaid, hfi, hinv' inv hfi]
  · rcases hfi : findInvoice s iid with _ | inv
    · simp [deleteInvoice, hfi]
    · simp [deleteInvoice, hfi, hinv' inv hfi]
  · rcases hfc : findClient s cdata.clientId with _ | c
    · simp [createInvoice, hfc]
    · simp [createInvoice, hfc, hcl' c hfc]

/-- Witness for C9 at a concrete input: bob calls every operation against
alice's invoice 10 and client 1 in `demoS1`; the invoice and the client
exist but are not his. -/
theorem ownership_indistinguishable_from_absence_witness :
    getInvoiceById "bob" 10 demoS1 = .error (.notFound "Invoice not found") ∧
    updateInvoice "bob" 10 demoUpd demoS1 =
      (.error (.notFound "Invoice not found"), demoS1) ∧
    markInvoiceAsPaid "bob" 10 { paidDate := 86400000 } demoS1 =
      (.error (.notFound "Invoice not found"), demoS1) ∧
    deleteInvoice "bob" 10 demoS1 =
      (.error (.notFound "Invoice not found"), demoS1) ∧
    createInvoice "bob" demoCreate 2025 0 mlDown demoS1 =
      (.error (.notFound "Client not found"), demoS1) :=
  ownership_indistinguishable_from_absence demoS1 "bob" 10 demoCreate demoUpd
    { paidDate := 86400000 } 2025 0 mlDown (by decide) (by decide)

/-- C7: a failed prediction call (timeout, non-2xx, malformed response —
every case in which the transport rejects) makes `predictPaymentTime`
return `null` instead of rethrowing, and `createInvoice` still succeeds:
under the conditions in which creation would succeed at all (owned client,
no number collision), the call returns the created invoice, and the stored
row carries no prediction fields. -/
theorem predictor_failure_never_fails_create :
    (∀ (req : PaymentPredictionRequest) (e : String),
        predictPaymentTime req (.error e) = none) ∧
    ∀ (s : St) (u : String) (data : CreateInvoiceRequest) (year : Nat)
      (now : Int) (e : String) (c : Client),
      findClient s data.clientId = some c → c.userId = u →
      (s.invoices.any fun i =>
        i.invoiceNumber == generateInvoiceNumber u year s) = false →
      (∀ i ∈ s.invoices, i.id ≠ s.nextId) →
      ∃ resp s',
        createInvoice u data year now (.error e) s = (.ok resp, s') ∧
        resp.invoice.predictedPaymentDays = none ∧
        resp.invoice.predictionConfidence = none ∧
        resp.invoice.predictedPaymentDate = none ∧
        ∃ stored, findInvoice s' s.nextId = some stored ∧
          stored.predictedPaymentDays = none ∧
          stored.predictionConfidence = none ∧
          stored.predictedPaymentDate = none := by
  refine ⟨fun _ _ => rfl, ?_⟩
  intro s u data year now e c hc hu hany hfresh
  simp only [createInvoice, hc]
  rw [if_neg (by simp [hu]), if_neg (by simp [hany])]
  have hfind : ∀ (inv : Invoice), inv.id = s.nextId →
      findInvoice
        { s with
          invoices := s.invoices ++ [inv], nextId := s.nextId + 1,
          issuedLog := s.issuedLog ++ [(u, year)] } s.nextId = some inv := by
    intro inv hid
    rw [findInvoice]
    have := findInvoice_append_fresh s.invoices inv
      (fun i hi => by rw [hid]; exact hfresh i hi)
    rw [hid] at this
    exact this
  by_cases hst :
      (statsOfInvoices data.clientId
        (s.invoices ++ [newInvoiceRow s u data year now])).totalInvoices > 0
  · rw [if_pos hst]
    exact ⟨_, _, rfl, rfl, rfl, rfl, _, hfind _ rfl, rfl, rfl, rfl⟩
  · rw [if_neg hst]
    exact ⟨_, _, rfl, rfl, rfl, rfl, _, hfind _ rfl, rfl, rfl, rfl⟩

/-- Witness for C7 at a concrete input: alice creates an invoice in the
fresh state `demoSt` while the predictor times out. -/
theorem predictor_failure_never_fails_create_witness :
    ∃ resp s',
      createInvoice "alice" demoCreate 2025 0 (.error "timeout") demoSt =
        (.ok resp, s') ∧
      resp.invoice.predictedPaymentDays = none ∧
      resp.invoice.predictionConfidence = none ∧
      resp.invoice.predictedPaymentDate = none ∧
      ∃ stored, findInvoice s' demoSt.nextId = some stored ∧
        stored.predictedPaymentDays = none ∧
        stored.predictionConfidence = none ∧
        stored.predictedPaymentDate = none :=
  predictor_failure_never_fails_create.2 demoSt "alice" demoCreate 2025 0
    "timeout" demoClient (by decide) (by decide) (by decide) (by decide)

/-- Variant of `findInvoice_append_fresh` with the id given separately. -/
theorem findInvoice_append_fresh' (l : List Invoice) (inv : Invoice)
    (nid : Nat) (hid : inv.id = nid) (hl : ∀ i ∈ l, i.id ≠ nid) :
    (l ++ [inv]).find? (fun i => i.id == nid) = some inv := by
  subst hid
  exact findInvoice_append_fresh l inv hl

/-- Mapping a row rewrite that does not affect the lookup predicate
commutes with the lookup. -/
theorem find?_map_invariant (l : List Invoice) (h : Invoice → Invoice)
    (p : Invoice → Bool) (hp : ∀ a, p (h a) = p a) :
    (l.map h).find? p = (l.find? p).map h := by
  induction l with
  | nil => rfl
  | cons a t ih =>
    by_cases hpa : p a = true
    · rw [List.map_cons, List.find?_cons_of_pos _ (by rw [hp]; exact hpa),
          List.find?_cons_of_pos _ hpa]
      rfl
    · have hpa' : p a = false := by simpa using hpa
      rw [List.map_cons, List.find?_cons_of_neg _ (by simp [hp, hpa']),
          List.find?_cons_of_neg _ (by simp [hpa'])]
      exact ih

/-- C10: a successful `createInvoice` builds its response from the row as
created, before the prediction update: the returned invoice never carries
prediction fields, even when the gateway returned a prediction and the
stored row was updated with it — the prediction is observable only through
a later read such as `getInvoiceById`. -/
theorem create_response_omits_prediction
    (s : St) (u : String) (data : CreateInvoiceRequest) (year : Nat)
    (now : Int) (p : PaymentPredictionResponse) (c : Client)
    (hc : findClient s data.clientId = some c) (hu : c.userId = u)
    (hany : (s.invoices.any fun i =>
      i.invoiceNumber == generateInvoiceNumber u year s) = false)
    (hfresh : ∀ i ∈ s.invoices, i.id ≠ s.nextId) :
    ∃ resp s',
      createInvoice u data year now (.ok p) s = (.ok resp, s') ∧
      resp.invoice.predictedPaymentDays = none ∧
      resp.invoice.predictionConfidence = none ∧
      resp.invoice.predictedPaymentDate = none ∧
      ((statsOfInvoices data.clientId
          (s.invoices ++ [newInvoiceRow s u data year now])).totalInvoices > 0 →
        getInvoiceById u s.nextId s' =
          .ok (predictedVersion (newInvoiceRow s u data year now) p)) := by
  simp only [createInvoice, hc]
  rw [if_neg (by simp [hu]), if_neg (by simp [hany])]
  by_cases hst :
      (statsOfInvoices data.clientId
        (s.invoices ++ [newInvoiceRow s u data year now])).totalInvoices > 0
  · rw [if_pos hst]
    refine ⟨_, _, rfl, rfl, rfl, rfl, fun _ => ?_⟩
    rw [getInvoiceById, findInvoice]
    rw [find?_map_invariant _ _ _ fun a => by
        by_cases ha : (a.id == (newInvoiceRow s u data year now).id) = true <;>
          simp [ha]]
    rw [findInvoice_append_fresh' s.invoices _ s.nextId rfl hfresh]
    simp [predictedVersion, newInvoiceRow, serializeInvoice]
  · rw [if_neg hst]
    exact ⟨_, _, rfl, rfl, rfl, rfl, fun hh => absurd hh hst⟩

/-- Witness for C10 at a concrete input: alice creates a second invoice in
`demoS2`, where her client has payment history, and the predictor answers;
the response still carries no prediction fields while the follow-up read
returns them. -/
theorem create_response_omits_prediction_witness :
    ∃ resp s',
      createInvoice "alice" demoCreate2 2025 0 (.ok demoPred) demoS2 =
        (.ok resp, s') ∧
      resp.invoice.predictedPaymentDays = none ∧
      resp.invoice.predictionConfidence = none ∧
      resp.invoice.predictedPaymentDate = none ∧
      ((statsOfInvoices demoCreate2.clientId
          (demoS2.invoices ++
            [newInvoiceRow demoS2 "alice" demoCreate2 2025 0])).totalInvoices
            > 0 →
        getInvoiceById "alice" demoS2.nextId s' =
          .ok (predictedVersion
            (newInvoiceRow demoS2 "alice" demoCreate2 2025 0) demoPred)) :=
  create_response_omits_prediction demoS2 "alice" demoCreate2 2025 0 demoPred
    demoClient (by decide) (by decide) (by decide) (by decide)

/-- C5 (code bug): the service generates bob's first number for 2025 by
counting only HIS invoices, so it produces `INV-2025-001` — but alice
already holds `INV-2025-001`, and the migration's global unique index on
`invoiceNumber` makes bob's insert fail with a unique-constraint violation
instead of restarting his numbering independently: creation for a second
owner in the same year does not restart at 001, it errors. -/
theorem other_owner_create_unique_violation :
    generateInvoiceNumber "bob" 2025 demoS1 = "INV-2025-001".toList ∧
    (demoS1.invoices.map fun i => (i.userId, i.invoiceNumber)) =
      [("alice", "INV-2025-001".toList)] ∧
    createInvoice "bob" demoCreateB 2025 0 mlDown demoS1 =
      (.error (.uniqueViolation "invoiceNumber"), demoS1) := by
  refine ⟨by decide, by decide, by decide⟩

/-- C2 counterexample: from an initial state, `createInvoice` followed by an
`updateInvoice` whose request carries `status: 'paid'` reaches a state in
which the invoice has status paid, a null `incomeRecordId`, and no income
record exists at all — the claimed if-and-only-if invariant fails on a
reachable state. -/
theorem status_paid_without_income_reachable :
    Reachable (updateInvoice "alice" 10 { status := some .paid } demoS1).2 ∧
    ((updateInvoice "alice" 10 { status := some .paid } demoS1).2.invoices.map
      fun i => (i.status, i.incomeLogId)) = [(InvoiceStatus.paid, none)] ∧
    (updateInvoice "alice" 10 { status := some .paid } demoS1).2.incomes = [] := by
  refine ⟨?_, by decide, by decide⟩
  have h0 : Reachable demoSt := by
    unfold demoSt
    exact ReachableW.init _ _
  have h1 : Reachable demoS1 :=
    ReachableW.step demoSt (.create "alice" demoCreate 2025 0 mlDown) h0 trivial
  exact ReachableW.step demoS1 (.update "alice" 10 { status := some .paid })
    h1 trivial

/-- C6 counterexample: alice creates `INV-2025-001`, deletes it (it is a
draft), and creates again; the re-created invoice receives `INV-2025-001`
once more because the sequence is derived from the count of currently
stored rows — yet it is the SECOND invoice alice issued in 2025 (the
issuance trace has two entries), so its sequence is not the 1-based count
of invoices issued by that owner in that year. -/
theorem delete_then_create_reuses_sequence :
    Reachable (createInvoice "alice" demoCreate 2025 0 mlDown demoS1d).2 ∧
    ((createInvoice "alice" demoCreate 2025 0 mlDown demoS1d).2.invoices.map
      fun i => i.invoiceNumber) = ["INV-2025-001".toList] ∧
    (createInvoice "alice" demoCreate 2025 0 mlDown demoS1d).2.issuedLog =
      [("alice", 2025), ("alice", 2025)] := by
  refine ⟨?_, by decide, by decide⟩
  have h0 : Reachable demoSt := by
    unfold demoSt
    exact ReachableW.init _ _
  have h1 : Reachable demoS1 :=
    ReachableW.step demoSt (.create "alice" demoCreate 2025 0 mlDown) h0 trivial
  have h2 : Reachable demoS1d :=
    ReachableW.step demoS1 (.delete "alice" 10) h1 trivial
  exact ReachableW.step demoS1d (.create "alice" demoCreate 2025 0 mlDown)
    h2 trivial

/-- Case analysis of `createInvoice`: the state is unchanged (an error) or
is `afterCreate` for some prediction outcome, and in the latter case the
collision check passed. -/
theorem createInvoice_cases (u : String) (data : CreateInvoiceRequest)
    (year : Nat) (now : Int) (ml : Except String PaymentPredictionResponse)
    (s : St) :
    (createInvoice u data year now ml s).2 = s ∨
    ((s.invoices.any fun i =>
        i.invoiceNumber == generateInvoiceNumber u year s) = false ∧
      ∃ p : Option PaymentPredictionResponse,
        (createInvoice u data year now ml s).2 = afterCreate s u data year now p) := by
  simp only [createInvoice]
  rcases hfc : findClient s data.clientId with _ | c
  · left; rfl
  · dsimp only
    by_cases hcu : c.userId ≠ u
    · rw [if_pos hcu]; left; rfl
    · rw [if_neg hcu]
      by_cases hany : (s.invoices.any fun i =>
          i.invoiceNumber == generateInvoiceNumber u year s) = true
      · rw [if_pos hany]; left; rfl
      · rw [if_neg hany]
        have hany' : (s.invoices.any fun i =>
            i.invoiceNumber == generateInvoiceNumber u year s) = false := by
          simpa using hany
        by_cases hst : (statsOfInvoices data.clientId
            (s.invoices ++ [newInvoiceRow s u data year now])).totalInvoices > 0
        · rw [if_pos hst]
          cases ml with
          | ok r => exact Or.inr ⟨hany', some r, rfl⟩
          | error e => exact Or.inr ⟨hany', none, rfl⟩
        · rw [if_neg hst]
          exact Or.inr ⟨hany', none, rfl⟩

/-- Case analysis of `updateInvoice`. -/
theorem update_cases (u : String) (iid : Nat) (data : UpdateInvoiceRequest)
    (s : St) :
    (updateInvoice u iid data s).2 = s ∨
    ∃ inv, findInvoice s iid = some inv ∧ inv.userId = u ∧
      ¬(inv.status = .paid ∧ data.status ≠ some .paid) ∧
      (updateInvoice u iid data s).2 = afterUpdate s iid inv data := by
  simp only [updateInvoice]
  rcases hfi : findInvoice s iid with _ | inv
  · left; rfl
  · dsimp only
    by_cases h1 : inv.userId ≠ u
    · rw [if_pos h1]; left; rfl
    · rw [if_neg h1]
      by_cases h2 : inv.status = .paid ∧ data.status ≠ some .paid
      · rw [if_pos h2]; left; rfl
      · rw [if_neg h2]
        exact Or.inr ⟨inv, rfl, not_ne_iff.mp h1, h2, rfl⟩

/-- Case analysis of `markInvoiceAsPaid`. -/
theorem markPaid_cases (u : String) (iid : Nat)
    (data : MarkInvoiceAsPaidRequest) (s : St) :
    (markInvoiceAsPaid u iid data s).2 = s ∨
    ∃ inv c, findInvoice s iid = some inv ∧ inv.userId = u ∧
      inv.status ≠ .paid ∧ findClient s inv.clientId = some c ∧
      (markInvoiceAsPaid u iid data s).2 = afterMarkPaid s u iid data inv c := by
  simp only [markInvoiceAsPaid]
  rcases hfi : findInvoice s iid with _ | inv
  · left; rfl
  · dsimp only
    by_cases h1 : inv.userId ≠ u
    · rw [if_pos h1]; left; rfl
    · rw [if_neg h1]
      by_cases h2 : inv.status = .paid
      · rw [if_pos h2]; left; rfl
      · rw [if_neg h2]
        rcases hfc : findClient s inv.clientId with _ | c
        · left; rfl
        · exact Or.inr ⟨inv, c, rfl, not_ne_iff.mp h1, h2, hfc, rfl⟩

/-- Case analysis of `deleteInvoice`. -/
theorem delete_cases (u : String) (iid : Nat) (s : St) :
    (deleteInvoice u iid s).2 = s ∨
    (deleteInvoice u iid s).2 = afterDelete s iid := by
  simp only [deleteInvoice]
  rcases hfi : findInvoice s iid with _ | inv
  · left; rfl
  · dsimp only
    by_cases h1 : inv.userId ≠ u
    · rw [if_pos h1]; left; rfl
    · rw [if_neg h1]
      by_cases h2 : inv.status = .paid
      · rw [if_pos h2]; left; rfl
      · rw [if_neg h2]; right; rfl

/-- Replacing the row found at an id by a row with the same projection
leaves the projected column unchanged. -/
theorem map_replace_proj {α : Type} (l : List Invoice) (iid : Nat)
    (inv upd : Invoice) (f : Invoice → α)
    (hf : l.find? (fun i => i.id == iid) = some inv)
    (hnd : (l.map Invoice.id).Nodup) (hupd : f upd = f inv) :
    (l.map fun i => if i.id == iid then upd else i).map f = l.map f := by
  rw [List.map_map]
  apply List.map_congr_left
  intro i hi
  by_cases hc : (i.id == iid) = true
  · have hii : i = inv := mem_eq_of_find?_id l iid inv hf hnd i hi (by simpa using hc)
    subst hii
    simp [Function.comp, hc, hupd]
  · simp [Function.comp, hc]

/-- Replacing the row found at an id by a row preserving a filter predicate
and a projection leaves the filtered projection unchanged. -/
theorem filter_proj_replace {α : Type} (l : List Invoice) (iid : Nat)
    (inv upd : Invoice) (p : Invoice → Bool) (f : Invoice → α)
    (hf : l.find? (fun i => i.id == iid) = some inv)
    (hnd : (l.map Invoice.id).Nodup) (hp : p upd = p inv) (hfp : f upd = f inv) :
    ((l.map fun i => if i.id == iid then upd else i).filter p).map f
      = (l.filter p).map f := by
  apply filter_map_proj_congr
  intro i hi
  by_cases hc : (i.id == iid) = true
  · have hii : i = inv := mem_eq_of_find?_id l iid inv hf hnd i hi (by simpa using hc)
    subst hii
    exact ⟨by simp [hc, hp], by simp [hc, hfp]⟩
  · simp [hc]

/-- The prediction update keeps the id of every row. -/
theorem predmap_id_stable (i : Invoice) (nid : Nat)
    (pred : PaymentPredictionResponse) :
    (if (i.id == nid) = true then predictedVersion i pred else i).id = i.id := by
  by_cases hc : (i.id == nid) = true <;> simp [hc, predictedVersion]

/-- A fresh row appended to a duplicate-free id column keeps it
duplicate-free. -/
theorem nodup_ids_append (l : List Invoice) (row : Invoice)
    (h : (l.map Invoice.id).Nodup) (hfresh : ∀ i ∈ l, i.id ≠ row.id) :
    ((l ++ [row]).map Invoice.id).Nodup := by
  rw [List.map_append, List.nodup_append]
  refine ⟨h, List.nodup_singleton _, ?_⟩
  intro a ha hb
  rcases List.mem_map.mp ha with ⟨i, hi, rfl⟩
  simp only [List.map_cons, List.map_nil, List.mem_singleton] at hb
  exact hfresh i hi hb

/-- `idsWf` is preserved by a successful creation. -/
theorem idsWf_afterCreate (s : St) (u : String) (data : CreateInvoiceRequest)
    (year : Nat) (now : Int) (p : Option PaymentPredictionResponse)
    (hw : idsWf s) : idsWf (afterCreate s u data year now p) := by
  obtain ⟨h1, h2, h3⟩ := hw
  have hrow : (newInvoiceRow s u data year now).id = s.nextId := rfl
  have hbound : ∀ inv ∈ s.invoices ++ [newInvoiceRow s u data year now],
      inv.id < s.nextId + 1 := by
    intro inv hm
    rcases List.mem_append.mp hm with hm | hm
    · exact Nat.lt_succ_of_lt (h1 inv hm)
    · simp only [List.mem_singleton] at hm
      subst hm
      omega
  have hnd : ((s.invoices ++ [newInvoiceRow s u data year now]).map
      Invoice.id).Nodup :=
    nodup_ids_append _ _ h3 fun i hi => by
      rw [hrow]
      exact Nat.ne_of_lt (h1 i hi)
  cases p with
  | none => exact ⟨hbound, fun rec hm => Nat.lt_succ_of_lt (h2 rec hm), hnd⟩
  | some pred =>
    dsimp only [afterCreate]
    refine ⟨?_, fun rec hm => Nat.lt_succ_of_lt (h2 rec hm), ?_⟩
    · intro inv hm
      rcases List.mem_map.mp hm with ⟨i, hi, rfl⟩
      rw [predmap_id_stable]
      exact hbound i hi
    · have : (((s.invoices ++ [newInvoiceRow s u data year now]).map fun i =>
          if i.id == (newInvoiceRow s u data year now).id then
            predictedVersion i pred
          else i).map Invoice.id) =
          ((s.invoices ++ [newInvoiceRow s u data year now]).map Invoice.id) := by
        rw [List.map_map]
        exact List.map_congr_left fun i _ => predmap_id_stable i _ pred
      rw [this]
      exact hnd

/-- `idsWf` is preserved by a successful update. -/
theorem idsWf_afterUpdate (s : St) (iid : Nat) (inv : Invoice)
    (data : UpdateInvoiceRequest) (hf : findInvoice s iid = some inv)
    (hw : idsWf s) : idsWf (afterUpdate s iid inv data) := by
  obtain ⟨h1, h2, h3⟩ := hw
  dsimp only [afterUpdate]
  have hids : ((s.invoices.map fun i =>
      if i.id == iid then updatedRow inv data else i).map Invoice.id)
      = s.invoices.map Invoice.id :=
    map_replace_proj s.invoices iid inv _ Invoice.id hf h3 rfl
  refine ⟨?_, h2, ?_⟩
  · intro i hm
    rcases List.mem_map.mp hm with ⟨j, hj, rfl⟩
    by_cases hc : (j.id == iid) = true
    · have hji : j = inv := mem_eq_of_find?_id s.invoices iid inv hf h3 j hj
        (by simpa using hc)
      simp only [if_pos hc]
      have : (updatedRow inv data).id = inv.id := rfl
      rw [this]
      exact h1 inv (List.mem_of_find?_eq_some hf)
    · simp only [if_neg hc]
      exact h1 j hj
  · rw [hids]
    exact h3

/-- `idsWf` is preserved by a successful mark-paid transaction. -/
theorem idsWf_afterMarkPaid (s : St) (u : String) (iid : Nat)
    (data : MarkInvoiceAsPaidRequest) (inv : Invoice) (c : Client)
    (hf : findInvoice s iid = some inv)
    (hw : idsWf s) : idsWf (afterMarkPaid s u iid data inv c) := by
  obtain ⟨h1, h2, h3⟩ := hw
  dsimp only [afterMarkPaid]
  have hids : ((s.invoices.map fun i =>
      if i.id == iid then paidVersion inv data.paidDate s.nextId else i).map
        Invoice.id) = s.invoices.map Invoice.id :=
    map_replace_proj s.invoices iid inv _ Invoice.id hf h3 rfl
  refine ⟨?_, ?_, ?_⟩
  · intro i hm
    rcases List.mem_map.mp hm with ⟨j, hj, rfl⟩
    by_cases hc : (j.id == iid) = true
    · simp only [if_pos hc]
      have : (paidVersion inv data.paidDate s.nextId).id = inv.id := rfl
      rw [this]
      exact Nat.lt_succ_of_lt (h1 inv (List.mem_of_find?_eq_some hf))
    · simp only [if_neg hc]
      exact Nat.lt_succ_of_lt (h1 j hj)
  · intro rec hm
    rcases List.mem_append.mp hm with hm | hm
    · exact Nat.lt_succ_of_lt (h2 rec hm)
    · simp only [List.mem_singleton] at hm
      subst hm
      simp [specIncomeRecord]
  · rw [hids]
    exact h3

/-- `idsWf` is preserved by a deletion. -/
theorem idsWf_afterDelete (s : St) (iid : Nat) (hw : idsWf s) :
    idsWf (afterDelete s iid) := by
  obtain ⟨h1, h2, h3⟩ := hw
  dsimp only [afterDelete]
  refine ⟨?_, h2, ?_⟩
  · intro i hm
    exact h1 i (List.mem_of_mem_filter hm)
  · exact List.Nodup.sublist ((List.filter_sublist _).map Invoice.id) h3

/-- Appending an income record preserves the link invariant (earlier
lookups are unaffected). -/
theorem linkInv_incomes_append (l : List Invoice) (inc : List IncomeLog)
    (newRec : IncomeLog) (hl : linkInv l inc) : linkInv l (inc ++ [newRec]) := by
  refine ⟨hl.1, ?_⟩
  intro inv hm hp
  obtain ⟨rid, rec, h1, h2, h3, h4⟩ := hl.2 inv hm hp
  refine ⟨rid, rec, h1, ?_, h3, h4⟩
  rw [List.find?_append, h2]
  rfl

/-- Appending an unpaid, unlinked row preserves the link invariant. -/
theorem linkInv_append_row (l : List Invoice) (inc : List IncomeLog)
    (row : Invoice) (hl : linkInv l inc) (h1 : row.incomeLogId = none)
    (h2 : row.status ≠ .paid) : linkInv (l ++ [row]) inc := by
  constructor
  · intro inv hm
    rcases List.mem_append.mp hm with hm | hm
    · exact hl.1 inv hm
    · simp only [List.mem_singleton] at hm
      subst hm
      rw [h1]
      exact ⟨fun h => absurd rfl h, fun h => absurd h h2⟩
  · intro inv hm hp
    rcases List.mem_append.mp hm with hm | hm
    · exact hl.2 inv hm hp
    · simp only [List.mem_singleton] at hm
      subst hm
      exact absurd hp h2
  
/-- The prediction-columns update preserves the link invariant: it touches
neither status, link, amount nor paid date. -/
theorem linkInv_predmap (l : List Invoice) (inc : List IncomeLog) (nid : Nat)
    (pred : PaymentPredictionResponse) (hl : linkInv l inc) :
    linkInv (l.map fun i =>
      if i.id == nid then predictedVersion i pred else i) inc := by
  constructor
  · intro inv hm
    rcases List.mem_map.mp hm with ⟨i, hi, rfl⟩
    by_cases hc : (i.id == nid) = true <;>
      simp only [if_pos, if_neg, hc, ite_true, ite_false, predictedVersion] <;>
      exact hl.1 i hi
  · intro inv hm hp
    rcases List.mem_map.mp hm with ⟨i, hi, rfl⟩
    by_cases hc : (i.id == nid) = true
    · simp only [if_pos hc, predictedVersion] at hp ⊢
      exact hl.2 i hi hp
    · simp only [if_neg hc] at hp ⊢
      exact hl.2 i hi hp

/-- Replacing the row found at an id by a row that itself satisfies the
per-row link conditions preserves the link invariant. -/
theorem linkInv_replace (l : List Invoice) (inc : List IncomeLog) (iid : Nat)
    (upd : Invoice) (hl : linkInv l inc)
    (hiff : upd.incomeLogId ≠ none ↔ upd.status = .paid)
    (hpaid : upd.status = .paid → ∃ rid rec, upd.incomeLogId = some rid ∧
      inc.find? (fun r => r.id == rid) = some rec ∧ rec.amount = upd.amount ∧
      some rec.loggedAt = upd.paidDate) :
    linkInv (l.map fun i => if i.id == iid then upd else i) inc := by
  constructor
  · intro inv' hm
    rcases List.mem_map.mp hm with ⟨i, hi, rfl⟩
    by_cases hc : (i.id == iid) = true
    · simpa only [if_pos hc] using hiff
    · simpa only [if_neg hc] using hl.1 i hi
  · intro inv' hm hp
    rcases List.mem_map.mp hm with ⟨i, hi, rfl⟩
    by_cases hc : (i.id == iid) = true
    · simp only [if_pos hc] at hp ⊢
      exact hpaid hp
    · simp only [if_neg hc] at hp ⊢
      exact hl.2 i hi hp

/-- A lookup by a fresh id over extended income rows finds the new row. -/
theorem incomes_append_fresh (inc : List IncomeLog) (rec : IncomeLog)
    (nid : Nat) (hid : rec.id = nid) (hfr : ∀ r ∈ inc, r.id ≠ nid) :
    (inc ++ [rec]).find? (fun r => r.id == nid) = some rec := by
  rw [List.find?_append, List.find?_eq_none.mpr fun r hr => by simp [hfr r hr]]
  simp [hid]

/-- The link invariant is preserved by a successful creation. -/
theorem link_afterCreate (s : St) (u : String) (data : CreateInvoiceRequest)
    (year : Nat) (now : Int) (p : Option PaymentPredictionResponse)
    (hl : incomeLinkInvariant s) :
    incomeLinkInvariant (afterCreate s u data year now p) := by
  cases p with
  | none =>
    exact linkInv_append_row _ _ _ hl rfl fun h => InvoiceStatus.noConfusion h
  | some pred =>
    exact linkInv_predmap _ _ _ _
      (linkInv_append_row _ _ _ hl rfl fun h => InvoiceStatus.noConfusion h)

/-- The link invariant is preserved by a successful update whose request
does not carry `status: 'paid'`. -/
theorem link_afterUpdate (s : St) (iid : Nat) (inv : Invoice)
    (data : UpdateInvoiceRequest) (hf : findInvoice s iid = some inv)
    (hl : incomeLinkInvariant s)
    (hguard : ¬(inv.status = .paid ∧ data.status ≠ some .paid))
    (hnp : data.status ≠ some .paid) :
    incomeLinkInvariant (afterUpdate s iid inv data) := by
  have hinvnp : inv.status ≠ .paid := fun hp => hguard ⟨hp, hnp⟩
  have hmem := List.mem_of_find?_eq_some hf
  have hnone : inv.incomeLogId = none := by
    by_contra hne
    exact hinvnp ((hl.1 inv hmem).mp hne)
  have hupdst : (updatedRow inv data).status ≠ .paid := by
    show data.status.getD inv.status ≠ .paid
    cases hds : data.status with
    | none => simpa using hinvnp
    | some st =>
      simp only [Option.getD]
      exact fun h => hnp (by rw [hds, h])
  have hupdlink : (updatedRow inv data).incomeLogId = none := hnone
  apply linkInv_replace s.invoices s.incomes iid _ hl
  · rw [hupdlink]
    exact ⟨fun h => absurd rfl h, fun h => absurd h hupdst⟩
  · exact fun hp => absurd hp hupdst

/-- The link invariant is preserved by a successful mark-paid transaction:
the new income record has the invoice's amount and the paid date, and the
updated invoice links to it. -/
theorem link_afterMarkPaid (s : St) (u : String) (iid : Nat)
    (data : MarkInvoiceAsPaidRequest) (inv : Invoice) (c : Client)
    (hw : idsWf s) (hl : incomeLinkInvariant s) :
    incomeLinkInvariant (afterMarkPaid s u iid data inv c) := by
  apply linkInv_replace s.invoices _ iid _
    (linkInv_incomes_append _ _ _ hl)
  · exact ⟨fun _ => rfl, fun _ => by show some s.nextId ≠ none; simp⟩
  · intro _
    refine ⟨s.nextId, specIncomeRecord s u inv c data, rfl, ?_, rfl, rfl⟩
    exact incomes_append_fresh s.incomes _ s.nextId rfl
      fun r hr => Nat.ne_of_lt (hw.2.1 r hr)

/-- The link invariant is preserved by a deletion. -/
theorem link_afterDelete (s : St) (iid : Nat) (hl : incomeLinkInvariant s) :
    incomeLinkInvariant (afterDelete s iid) := by
  constructor
  · intro inv hm
    exact hl.1 inv (List.mem_of_mem_filter hm)
  · intro inv hm hp
    exact hl.2 inv (List.mem_of_mem_filter hm) hp

/-- One operation without `status: 'paid'` update requests preserves id
well-formedness and the link invariant. -/
theorem stepNP_preserves (s : St) (op : Op) (hP : opNoStatusPaid op)
    (h : idsWf s ∧ incomeLinkInvariant s) :
    idsWf (applyOp op s) ∧ incomeLinkInvariant (applyOp op s) := by
  cases op with
  | create u data year now ml =>
    rcases createInvoice_cases u data year now ml s with he | ⟨_, p, he⟩
    · dsimp only [applyOp]
      rw [he]
      exact h
    · dsimp only [applyOp]
      rw [he]
      exact ⟨idsWf_afterCreate _ _ _ _ _ _ h.1, link_afterCreate _ _ _ _ _ _ h.2⟩
  | update u iid data =>
    rcases update_cases u iid data s with he | ⟨inv, hf, hu, hg, he⟩
    · dsimp only [applyOp]
      rw [he]
      exact h
    · dsimp only [applyOp]
      rw [he]
      have hnp : data.status ≠ some .paid := hP
      exact ⟨idsWf_afterUpdate _ _ _ _ hf h.1,
        link_afterUpdate _ _ _ _ hf h.2 hg hnp⟩
  | markPaid u iid data =>
    rcases markPaid_cases u iid data s with he | ⟨inv, c, hf, hu, hnp, hfc, he⟩
    · dsimp only [applyOp]
      rw [he]
      exact h
    · dsimp only [applyOp]
      rw [he]
      exact ⟨idsWf_afterMarkPaid _ _ _ _ _ _ hf h.1,
        link_afterMarkPaid _ _ _ _ _ _ h.1 h.2⟩
  | delete u iid =>
    rcases delete_cases u iid s with he | he
    · dsimp only [applyOp]
      rw [he]
      exact h
    · dsimp only [applyOp]
      rw [he]
      exact ⟨idsWf_afterDelete _ _ h.1, link_afterDelete _ _ h.2⟩

/-- Induction over reachability without `status: 'paid'` update requests. -/
theorem reachNP_wf_link (s : St) (h : ReachableNP s) :
    idsWf s ∧ incomeLinkInvariant s := by
  induction h with
  | init cs n =>
    refine ⟨⟨?_, ?_, ?_⟩, ?_, ?_⟩ <;> simp [initSt, linkInv, incomeLinkInvariant]
  | step s op hs hPop ih => exact stepNP_preserves s op hPop ih

/-- C2 amended: in every state reachable by `createInvoice`,
`markInvoiceAsPaid`, `deleteInvoice` and `updateInvoice` calls whose
request does not carry `status: 'paid'`, an invoice's `incomeLogId` is
non-null exactly when its status is paid, and every paid invoice's linked
income record carries the invoice's amount and is logged at the invoice's
paid date. (The excluded update requests break the invariant, see the
counterexample.) -/
theorem income_link_invariant_no_status_paid_updates (s : St)
    (h : ReachableNP s) :
    (∀ inv ∈ s.invoices, (inv.incomeLogId ≠ none ↔ inv.status = .paid)) ∧
    (∀ inv ∈ s.invoices, inv.status = .paid →
      ∃ rid rec, inv.incomeLogId = some rid ∧ findIncome s rid = some rec ∧
        rec.amount = inv.amount ∧ some rec.loggedAt = inv.paidDate) :=
  (reachNP_wf_link s h).2

/-- Witness for the amended C2 at a concrete reachable state: `demoS2`
(create, then mark paid — no status-carrying update). -/
theorem income_link_invariant_no_status_paid_updates_witness :
    (∀ inv ∈ demoS2.invoices, (inv.incomeLogId ≠ none ↔ inv.status = .paid)) ∧
    (∀ inv ∈ demoS2.invoices, inv.status = .paid →
      ∃ rid rec, inv.incomeLogId = some rid ∧ findIncome demoS2 rid = some rec ∧
        rec.amount = inv.amount ∧ some rec.loggedAt = inv.paidDate) :=
  income_link_invariant_no_status_paid_updates demoS2 (by
    have h0 : ReachableNP demoSt := by
      unfold demoSt
      exact ReachableW.init _ _
    have h1 : ReachableNP demoS1 :=
      ReachableW.step demoSt (.create "alice" demoCreate 2025 0 mlDown) h0
        trivial
    exact ReachableW.step demoS1 (.markPaid "alice" 10 { paidDate := 86400000 })
      h1 trivial)

/-- The prediction update keeps the numbering filter value of every row. -/
theorem predmap_tag_stable (u : String) (y : Nat) (i : Invoice) (nid : Nat)
    (pred : PaymentPredictionResponse) :
    ownedWithTag u y (if (i.id == nid) = true then predictedVersion i pred else i)
      = ownedWithTag u y i := by
  by_cases hc : (i.id == nid) = true <;> simp [hc, predictedVersion, ownedWithTag]

/-- The prediction update keeps the number of every row. -/
theorem predmap_number_stable (i : Invoice) (nid : Nat)
    (pred : PaymentPredictionResponse) :
    (if (i.id == nid) = true then predictedVersion i pred else i).invoiceNumber
      = i.invoiceNumber := by
  by_cases hc : (i.id == nid) = true <;> simp [hc, predictedVersion]

/-- `numbersNodup` is preserved by a successful creation whose collision
check passed. -/
theorem numbers_afterCreate (s : St) (u : String) (data : CreateInvoiceRequest)
    (year : Nat) (now : Int) (p : Option PaymentPredictionResponse)
    (hany : (s.invoices.any fun i =>
      i.invoiceNumber == generateInvoiceNumber u year s) = false)
    (hn : numbersNodup s) : numbersNodup (afterCreate s u data year now p) := by
  have hfresh : ∀ i ∈ s.invoices,
      i.invoiceNumber ≠ (newInvoiceRow s u data year now).invoiceNumber := by
    intro i hi he
    have := List.any_eq_false.mp hany i hi
    simp only [beq_iff_eq] at this
    exact this he
  have hbase : ((s.invoices ++ [newInvoiceRow s u data year now]).map
      Invoice.invoiceNumber).Nodup := by
    rw [List.map_append, List.nodup_append]
    refine ⟨hn, List.nodup_singleton _, ?_⟩
    intro a ha hb
    rcases List.mem_map.mp ha with ⟨i, hi, rfl⟩
    simp only [List.map_cons, List.map_nil, List.mem_singleton] at hb
    exact hfresh i hi hb
  cases p with
  | none => exact hbase
  | some pred =>
    show ((((s.invoices ++ [newInvoiceRow s u data year now]).map fun i =>
        if i.id == (newInvoiceRow s u data year now).id then
          predictedVersion i pred
        else i)).map Invoice.invoiceNumber).Nodup
    rw [List.map_map]
    have : ((s.invoices ++ [newInvoiceRow s u data year now]).map
        (Invoice.invoiceNumber ∘ fun i =>
          if i.id == (newInvoiceRow s u data year now).id then
            predictedVersion i pred
          else i)) =
        ((s.invoices ++ [newInvoiceRow s u data year now]).map
          Invoice.invoiceNumber) :=
      List.map_congr_left fun i _ => predmap_number_stable i _ pred
    rw [this]
    exact hbase

/-- `numbersNodup` is preserved by every operation. -/
theorem step_preserves_numbers (s : St) (op : Op)
    (h : idsWf s ∧ numbersNodup s) :
    numbersNodup (applyOp op s) := by
  cases op with
  | create u data year now ml =>
    rcases createInvoice_cases u data year now ml s with he | ⟨hany, p, he⟩
    · dsimp only [applyOp]
      rw [he]
      exact h.2
    · dsimp only [applyOp]
      rw [he]
      exact numbers_afterCreate _ _ _ _ _ _ hany h.2
  | update u iid data =>
    rcases update_cases u iid data s with he | ⟨inv, hf, hu, hg, he⟩
    · dsimp only [applyOp]
      rw [he]
      exact h.2
    · dsimp only [applyOp]
      rw [he]
      show (((s.invoices.map fun i =>
          if i.id == iid then updatedRow inv data else i)).map
            Invoice.invoiceNumber).Nodup
      rw [map_replace_proj s.invoices iid inv (updatedRow inv data)
        Invoice.invoiceNumber hf h.1.2.2 rfl]
      exact h.2
  | markPaid u iid data =>
    rcases markPaid_cases u iid data s with he | ⟨inv, c, hf, hu, hnp, hfc, he⟩
    · dsimp only [applyOp]
      rw [he]
      exact h.2
    · dsimp only [applyOp]
      rw [he]
      show (((s.invoices.map fun i =>
          if i.id == iid then paidVersion inv data.paidDate s.nextId
          else i)).map Invoice.invoiceNumber).Nodup
      rw [map_replace_proj s.invoices iid inv
        (paidVersion inv data.paidDate s.nextId) Invoice.invoiceNumber hf
        h.1.2.2 rfl]
      exact h.2
  | delete u iid =>
    rcases delete_cases u iid s with he | he
    · dsimp only [applyOp]
      rw [he]
      exact h.2
    · dsimp only [applyOp]
      rw [he]
      exact List.Nodup.sublist
        ((List.filter_sublist _).map Invoice.invoiceNumber) h.2

/-- `idsWf` is preserved by every operation. -/
theorem step_preserves_ids (s : St) (op : Op) (h : idsWf s) :
    idsWf (applyOp op s) := by
  cases op with
  | create u data year now ml =>
    rcases createInvoice_cases u data year now ml s with he | ⟨hany, p, he⟩ <;>
      dsimp only [applyOp] <;> rw [he]
    · exact h
    · exact idsWf_afterCreate _ _ _ _ _ _ h
  | update u iid data =>
    rcases update_cases u iid data s with he | ⟨inv, hf, hu, hg, he⟩ <;>
      dsimp only [applyOp] <;> rw [he]
    · exact h
    · exact idsWf_afterUpdate _ _ _ _ hf h
  | markPaid u iid data =>
    rcases markPaid_cases u iid data s with he | ⟨inv, c, hf, hu, hnp, hfc, he⟩ <;>
      dsimp only [applyOp] <;> rw [he]
    · exact h
    · exact idsWf_afterMarkPaid _ _ _ _ _ _ hf h
  | delete u iid =>
    rcases delete_cases u iid s with he | he <;>
      dsimp only [applyOp] <;> rw [he]
    · exact h
    · exact idsWf_afterDelete _ _ h

/-- The numbering invariant is preserved by a successful creation: the new
row extends its owner-year group by exactly the next sequence number, and
the issuance trace grows with it. -/
theorem numbering_afterCreate (s : St) (u : String)
    (data : CreateInvoiceRequest) (year : Nat) (now : Int)
    (p : Option PaymentPredictionResponse) (hn : numberingInv s) :
    numberingInv (afterCreate s u data year now p) := by
  suffices hbase : numberingInv (afterCreate s u data year now none) by
    cases p with
    | none => exact hbase
    | some pred =>
      intro u' y'
      have he : ownerYearNumbers (afterCreate s u data year now (some pred)) u' y'
          = ownerYearNumbers (afterCreate s u data year now none) u' y' := by
        dsimp only [afterCreate, ownerYearNumbers]
        exact filter_map_proj_congr _ _ _ _ fun i _ =>
          ⟨predmap_tag_stable u' y' i _ pred, predmap_number_stable i _ pred⟩
      have hic : issuedCount (afterCreate s u data year now (some pred)) u' y'
          = issuedCount (afterCreate s u data year now none) u' y' := rfl
      rw [he, hic]
      exact hbase u' y'
  intro u' y'
  have hIH1 := (hn u' y').1
  have hIH2 := (hn u' y').2
  dsimp only [ownerYearNumbers, issuedCount] at hIH1 hIH2 ⊢
  dsimp only [afterCreate]
  have hrownum : (newInvoiceRow s u data year now).invoiceNumber
      = numberChars year ((s.invoices.filter (ownedWithTag u year)).length + 1) :=
    rfl
  have hrowtag : ownedWithTag u' y' (newInvoiceRow s u data year now)
      = (decide (u = u') && decide (y' = year)) :=
    ownedWithTag_gen u' u y' year _ _ hrownum rfl
  by_cases hu' : u = u'
  · by_cases hy' : y' = year
    · subst hu'
      subst hy'
      have hIHa := (hn u y').1
      have hIHb := (hn u y').2
      dsimp only [ownerYearNumbers, issuedCount] at hIHa hIHb
      have hq : (List.filter (fun e : String × Nat =>
          decide (e.1 = u) && decide (e.2 = y')) [(u, y')]) = [(u, y')] := by
        simp
      rw [filter_append_single_pos _ _ _ (by rw [hrowtag]; simp),
          List.filter_append, hq, List.map_append, List.length_append,
          List.length_append]
      constructor
      · rw [hIHa]
        simp only [List.map_cons, List.map_nil, List.length_append,
          List.length_map, List.length_range, List.length_cons,
          List.length_nil, Nat.zero_add]
        rw [List.range_succ, List.map_append]
        simp [hrownum]
      · simp only [List.map_cons, List.map_nil, List.length_cons,
          List.length_nil, List.length_map, List.length_append] at hIHb ⊢
        omega
    · have htag : ownedWithTag u' y' (newInvoiceRow s u data year now) = false := by
        rw [hrowtag]
        simp [hy']
      have hyy : ¬(year = y') := fun h => hy' h.symm
      have hq : (List.filter (fun e : String × Nat =>
          decide (e.1 = u') && decide (e.2 = y')) [(u, year)]) = [] := by
        simp [hyy]
      rw [filter_append_single_neg _ _ _ htag, List.filter_append, hq,
          List.append_nil]
      exact ⟨hIH1, hIH2⟩
  · have htag : ownedWithTag u' y' (newInvoiceRow s u data year now) = false := by
      rw [hrowtag]
      simp [hu']
    have hq : (List.filter (fun e : String × Nat =>
        decide (e.1 = u') && decide (e.2 = y')) [(u, year)]) = [] := by
      simp [hu']
    rw [filter_append_single_neg _ _ _ htag, List.filter_append, hq,
        List.append_nil]
    exact ⟨hIH1, hIH2⟩

/-- The numbering invariant is preserved by a successful update: neither
owner, number, nor issuance trace changes. -/
theorem numbering_afterUpdate (s : St) (iid : Nat) (inv : Invoice)
    (data : UpdateInvoiceRequest) (hf : findInvoice s iid = some inv)
    (hnd : (s.invoices.map Invoice.id).Nodup) (hn : numberingInv s) :
    numberingInv (afterUpdate s iid inv data) := by
  intro u' y'
  have he : ownerYearNumbers (afterUpdate s iid inv data) u' y'
      = ownerYearNumbers s u' y' := by
    dsimp only [afterUpdate, ownerYearNumbers]
    exact filter_proj_replace s.invoices iid inv (updatedRow inv data)
      (ownedWithTag u' y') Invoice.invoiceNumber hf hnd rfl rfl
  have hic : issuedCount (afterUpdate s iid inv data) u' y'
      = issuedCount s u' y' := rfl
  rw [he, hic]
  exact hn u' y'

/-- The numbering invariant is preserved by a successful mark-paid
transaction: neither owner, number, nor issuance trace changes. -/
theorem numbering_afterMarkPaid (s : St) (u : String) (iid : Nat)
    (data : MarkInvoiceAsPaidRequest) (inv : Invoice) (c : Client)
    (hf : findInvoice s iid = some inv)
    (hnd : (s.invoices.map Invoice.id).Nodup) (hn : numberingInv s) :
    numberingInv (afterMarkPaid s u iid data inv c) := by
  intro u' y'
  have he : ownerYearNumbers (afterMarkPaid s u iid data inv c) u' y'
      = ownerYearNumbers s u' y' := by
    dsimp only [afterMarkPaid, ownerYearNumbers]
    exact filter_proj_replace s.invoices iid inv
      (paidVersion inv data.paidDate s.nextId)
      (ownedWithTag u' y') Invoice.invoiceNumber hf hnd rfl rfl
  have hic : issuedCount (afterMarkPaid s u iid data inv c) u' y'
      = issuedCount s u' y' := rfl
  rw [he, hic]
  exact hn u' y'

/-- One delete-free operation preserves the numbering invariant. -/
theorem stepND_preserves_numbering (s : St) (op : Op) (hP : opNoDelete op)
    (h : idsWf s ∧ numberingInv s) : numberingInv (applyOp op s) := by
  cases op with
  | create u data year now ml =>
    rcases createInvoice_cases u data year now ml s with he | ⟨hany, p, he⟩ <;>
      dsimp only [applyOp] <;> rw [he]
    · exact h.2
    · exact numbering_afterCreate _ _ _ _ _ _ h.2
  | update u iid data =>
    rcases update_cases u iid data s with he | ⟨inv, hf, hu, hg, he⟩ <;>
      dsimp only [applyOp] <;> rw [he]
    · exact h.2
    · exact numbering_afterUpdate _ _ _ _ hf h.1.2.2 h.2
  | markPaid u iid data =>
    rcases markPaid_cases u iid data s with he | ⟨inv, c, hf, hu, hnp, hfc, he⟩ <;>
      dsimp only [applyOp] <;> rw [he]
    · exact h.2
    · exact numbering_afterMarkPaid _ _ _ _ _ _ hf h.1.2.2 h.2
  | delete u iid => exact hP.elim

/-- Every reachable state has well-formed ids and duplicate-free invoice
numbers. -/
theorem reach_ids_numbers (s : St) (h : Reachable s) :
    idsWf s ∧ numbersNodup s := by
  induction h with
  | init cs n =>
    refine ⟨⟨?_, ?_, ?_⟩, ?_⟩ <;> simp [initSt, numbersNodup]
  | step s op hs _ ih =>
    exact ⟨step_preserves_ids s op ih.1, step_preserves_numbers s op ih⟩

/-- Every delete-free reachable state has well-formed ids and satisfies the
numbering invariant. -/
theorem reachND_numbering (s : St) (h : ReachableND s) :
    idsWf s ∧ numberingInv s := by
  induction h with
  | init cs n =>
    refine ⟨⟨?_, ?_, ?_⟩, ?_⟩
    · simp [initSt]
    · simp [initSt]
    · simp [initSt]
    · intro u y
      simp [ownerYearNumbers, issuedCount, initSt]
  | step s op hs hP ih =>
    exact ⟨step_preserves_ids s op ih.1, stepND_preserves_numbering s op hP ih⟩

/-- C6 amended: in every reachable state the stored invoice numbers are
pairwise distinct (so in particular unique per owner — the global unique
index never admits a duplicate, even across delete/re-create sequences);
and in every state reachable WITHOUT deletes, each owner's invoices for a
year carry exactly the numbers `INV-<year>-001 .. INV-<year>-<n>` in
creation order, where `n` is the number of invoices that owner issued in
that year. (With deletes the sequence component can diverge from the
issuance count, see the counterexample.) -/
theorem invoice_numbering_invariant :
    (∀ s : St, Reachable s → numbersNodup s) ∧
    (∀ s : St, ReachableND s → numberingInv s) :=
  ⟨fun s h => (reach_ids_numbers s h).2, fun s h => (reachND_numbering s h).2⟩

/-- Witness for the amended C6 at concrete reachable states: the
delete/re-create state `demoS1d` plus a fresh creation keeps numbers
distinct, and the delete-free state `demoS1` satisfies the full numbering
invariant. -/
theorem invoice_numbering_invariant_witness :
    numbersNodup (createInvoice "alice" demoCreate 2025 0 mlDown demoS1d).2 ∧
    numberingInv demoS1 := by
  have h0 : Reachable demoSt := by
    unfold demoSt
    exact ReachableW.init _ _
  have h1 : Reachable demoS1 :=
    ReachableW.step demoSt (.create "alice" demoCreate 2025 0 mlDown) h0 trivial
  have h2 : Reachable demoS1d :=
    ReachableW.step demoS1 (.delete "alice" 10) h1 trivial
  have h3 : Reachable (createInvoice "alice" demoCreate 2025 0 mlDown demoS1d).2 :=
    ReachableW.step demoS1d (.create "alice" demoCreate 2025 0 mlDown) h2 trivial
  have g0 : ReachableND demoSt := by
    unfold demoSt
    exact ReachableW.init _ _
  have g1 : ReachableND demoS1 :=
    ReachableW.step demoSt (.create "alice" demoCreate 2025 0 mlDown) g0 trivial
  exact ⟨invoice_numbering_invariant.1 _ h3, invoice_numbering_invariant.2 _ g1⟩
